import Mathlib

/-!
# Verification of the zen-digital-journal core logic

Shallow embedding of the backend's core logic (streak tracking, PII
sanitization, context building, AI-call wrappers, response validation and
the conversation codec), with theorems settling the specification claims.

Python `datetime` values are modelled as a calendar day number (an integer,
as produced by `date.toordinal`) together with a within-day tick count;
`timedelta.days` between two dates is then the difference of day numbers.
Python strings are modelled as Lean `String`/`List Char`.
-/

namespace Zen

/-- A UTC timestamp: calendar day ordinal plus a tick (e.g. microsecond)
within the day.  Mirrors the granularity `update_user_streak` needs:
`.date()` projects the day, `.replace(hour=0, minute=0, second=0,
microsecond=0)` zeroes the tick. -/
structure Time where
  day : Int
  tick : Nat
  deriving DecidableEq, Repr

/-- Lexicographic order on timestamps, as `datetime` comparison. -/
def Time.lt (a b : Time) : Bool :=
  a.day < b.day || (a.day == b.day && a.tick < b.tick)

/-- `a <= b` for timestamps. -/
def Time.le (a b : Time) : Bool :=
  a.day < b.day || (a.day == b.day && a.tick ≤ b.tick)

/-- `now.replace(hour=0, minute=0, second=0, microsecond=0)`: midnight of
`now`'s calendar day. -/
def Time.midnight (t : Time) : Time :=
  { day := t.day, tick := 0 }

/-- Python `(a.date() - b.date()).days`. -/
def Time.daysDiff (a b : Time) : Int :=
  a.day - b.day

/-! ## Streak state machine (`src/backend/bp/journal.py`)

`update_user_streak(user, now)` reads the user's streak fields and the
count of the user's non-deleted journal entries created at or after
midnight of `now`.  The user's non-deleted entries are modelled by the
list of their `created_at` timestamps. -/

/-- The streak-relevant fields of a `User` row (`src/backend/models.py`).
`current_streak` and `longest_streak` are Python ints; `last_activity_date`
is a nullable datetime. -/
structure UserStreak where
  current_streak : Int
  longest_streak : Int
  last_activity_date : Option Time
  deriving DecidableEq, Repr

/-- `models.py` column defaults for a freshly registered user
(`auth.py` `register` sets none of these fields explicitly):
`last_activity_date` defaults to `datetime.utcnow`, both streak
counters default to 0. -/
def newUser (createdAt : Time) : UserStreak :=
  { current_streak := 0, longest_streak := 0, last_activity_date := some createdAt }

/-- The error payload `{"error": "Entry already created today"}`. -/
def duplicateEntryError : String := "Entry already created today"

/-- `Journal.query.filter(user_id == .., created_at >= midnight(now),
deleted_at.is_(None)).count()` over the user's non-deleted entry
timestamps. -/
def countEntriesToday (entries : List Time) (now : Time) : Nat :=
  (entries.filter (fun e => Time.le (Time.midnight now) e)).length

/-- `update_user_streak(user, now)` from `src/backend/bp/journal.py`
(lines 39-82).  Returns the error message (if any) together with the
user state after the call; on an error return the user is unmodified.
The query for today's entries runs only inside the
`if user.last_activity_date:` branch. -/
def update_user_streak (user : UserStreak) (entries : List Time) (now : Time) :
    Option String × UserStreak :=
  match user.last_activity_date with
  | some last =>
    let today_entries := countEntriesToday entries now
    if today_entries > 0 then
      (some duplicateEntryError, user)
    else
      let days_diff := Time.daysDiff now last
      if days_diff = 0 then
        (some duplicateEntryError, user)
      else
        let user' :=
          if days_diff = 1 then
            { user with current_streak := user.current_streak + 1 }
          else
            { user with current_streak := 1 }
        (none,
          { user' with
            longest_streak := max user'.current_streak user'.longest_streak
            last_activity_date := some now })
  | none =>
    let user' := { user with current_streak := 1 }
    (none,
      { user' with
        longest_streak := max user'.current_streak user'.longest_streak
        last_activity_date := some now })

/-- Durable per-user journal state: streak fields plus the timestamps of
the user's non-deleted entries. -/
structure JournalState where
  user : UserStreak
  entries : List Time
  deriving DecidableEq, Repr

/-- One `create_entry` activity at time `now`, reduced to its streak
effect: on success (no streak error, content valid) the committed state
carries the advanced streak and a new entry stamped `now`. -/
def activityStep (s : JournalState) (now : Time) : Option String × JournalState :=
  match update_user_streak s.user s.entries now with
  | (some e, _) => (some e, s)
  | (none, user') => (none, { user := user', entries := now :: s.entries })

/-- Process a sequence of activity timestamps; returns the final state and
the per-call outcome (`none` = accepted, `some msg` = rejected). -/
def runActivities (s : JournalState) : List Time → JournalState × List (Option String)
  | [] => (s, [])
  | t :: ts =>
    let (err, s') := activityStep s t
    let (sFin, outs) := runActivities s' ts
    (sFin, err :: outs)

/-! The streak recurrence as the specification words it (§4.1, §8 of the
spec); used to settle the refinement claim C1. -/

/-- Modelled from the spec: the streak recurrence of spec §4.1/§8 —
1 if first-ever or gap > 1 (or negative) since previous; previous + 1 if
gap == 1; rejected with a duplicate-entry error and no mutation if
gap == 0; on success `longest_streak = max(longest_streak,
current_streak)` and `last_activity_date = now`. -/
def specStreakStep (user : UserStreak) (now : Time) : Option String × UserStreak :=
  match user.last_activity_date with
  | none =>
    let cur := (1 : Int)
    (none, { current_streak := cur,
             longest_streak := max user.longest_streak cur,
             last_activity_date := some now })
  | some last =>
    let gap := Time.daysDiff now last
    if gap = 0 then
      (some duplicateEntryError, user)
    else
      let cur := if gap = 1 then user.current_streak + 1 else 1
      (none, { current_streak := cur,
               longest_streak := max user.longest_streak cur,
               last_activity_date := some now })

/-- Modelled from the spec: fold of `specStreakStep` over a timestamp
sequence, collecting each call's outcome. -/
def runSpecStreak (user : UserStreak) : List Time → UserStreak × List (Option String)
  | [] => (user, [])
  | t :: ts =>
    let (err, user') := specStreakStep user t
    let (uFin, outs) := runSpecStreak user' ts
    (uFin, err :: outs)

/-- Strictly increasing timestamp sequences. -/
def StrictlyIncreasing : List Time → Prop
  | [] => True
  | [_] => True
  | a :: b :: ts => Time.lt a b = true ∧ StrictlyIncreasing (b :: ts)

/-- Invariant carried by the C1 simulation: when `last_activity_date` is
unset no entries exist; otherwise every entry's day is at most the last
activity day. -/
def EntriesInv (user : UserStreak) (entries : List Time) : Prop :=
  match user.last_activity_date with
  | none => entries = []
  | some l => ∀ e ∈ entries, e.day ≤ l.day

/-! ## Entry creation (`create_entry`, `src/backend/bp/journal.py` lines
111-240)

The in-memory SQLAlchemy session mutations (the streak advance performed
by `update_user_streak`, the `db.session.add(entry)`) become durable only
at `db.session.commit()`; any return before the commit leaves the durable
state untouched (the request-scoped session is discarded).  `bleach.clean`
is an external HTML sanitizer, modelled as an arbitrary string function
`clean`. -/

/-- Python `str.strip()` over ASCII whitespace. -/
def isPySpace (c : Char) : Bool :=
  c == ' ' || (9 ≤ c.toNat && c.toNat ≤ 13)

/-- Python `s.strip()`. -/
def pyStrip (s : String) : String :=
  String.mk (((s.data.dropWhile isPySpace).reverse.dropWhile isPySpace).reverse)

/-- `sanitize_text_input(text, max_length)` from `journal.py` lines 30-37:
`None` for falsy input, otherwise `bleach.clean(text.strip(), tags=[],
strip=True)` truncated to `max_length` characters. -/
def sanitize_text_input (clean : String → String) (text : Option String)
    (maxLength : Nat := 10000) : Option String :=
  match text with
  | none => none
  | some t =>
    if t = "" then none
    else
      let clean_text := clean (pyStrip t)
      some (if clean_text.length > maxLength then clean_text.take maxLength
            else clean_text)

/-- Python truthiness of an optional string (`None` and `""` are falsy). -/
def optStrTruthy : Option String → Bool
  | none => false
  | some s => s ≠ ""

/-- `allowed_image_file(filename)` from `journal.py` lines 20-23. -/
def allowed_image_file (filename : String) : Bool :=
  filename.contains '.' &&
    ((filename.splitOn ".").getLastD "").toLower ∈ ["png", "jpg", "jpeg"]

/-- `allowed_audio_file(filename)` from `journal.py` lines 25-28. -/
def allowed_audio_file (filename : String) : Bool :=
  filename.contains '.' &&
    ((filename.splitOn ".").getLastD "").toLower ∈ ["wav", "mp3", "m4a"]

/-- The parts of the multipart request `create_entry` reads.  `ocrText`
models the OCR subsystem's output on the uploaded image: `none` when
`ocr_reader.readtext` raises, otherwise the joined non-blank extracted
texts. -/
structure CreateRequest where
  prompt : Option String
  modality : Option String
  tag : Option String
  answer : Option String
  filePresent : Bool
  filename : String
  fileSize : Nat
  ocrText : Option String

/-- `validate_create_entry_data(form_data)` from `journal.py` lines
84-109: returns the error list and the cleaned prompt/modality/tag. -/
def validate_create_entry_data (clean : String → String) (req : CreateRequest) :
    List String × (Option String × String × Option String) :=
  let prompt := sanitize_text_input clean req.prompt
  let errors1 :=
    if optStrTruthy prompt then ([] : List String)
    else ["Prompt is required and cannot be empty"]
  let modality := (req.modality.getD "text").toLower
  let errors2 :=
    if modality ∈ ["text", "image", "audio"] then ([] : List String)
    else ["Invalid modality. Must be 'text', 'image', or 'audio'"]
  let tag := sanitize_text_input clean (some (req.tag.getD "")) 150
  (errors1 ++ errors2, (prompt, modality, tag))

/-- `create_entry` (`journal.py` lines 111-240), reduced to its effect on
the durable journal state: returns the durable state after the request
and the HTTP status.  In-memory mutations (streak advance, entry add)
reach the durable state only at the single `db.session.commit()` on the
success path; every earlier `return` leaves the durable state as it was. -/
def create_entry (clean : String → String) (req : CreateRequest) (now : Time)
    (s : JournalState) : JournalState × Nat :=
  match update_user_streak s.user s.entries now with
  | (some _, _) => (s, 400)
  | (none, user') =>
    let (validation_errors, cleaned) := validate_create_entry_data clean req
    if validation_errors ≠ [] then (s, 400)
    else
      let modality := cleaned.2.1
      if modality = "text" then
        let answer := sanitize_text_input clean req.answer
        if ¬ optStrTruthy answer then (s, 400)
        else
          let a0 := answer.getD ""
          let _answerFinal := if a0.length > 10000 then a0.take 10000 else a0
          ({ user := user', entries := now :: s.entries }, 201)
      else if modality = "image" then
        if ¬ req.filePresent then (s, 400)
        else if req.filename = "" then (s, 400)
        else if ¬ allowed_image_file req.filename then (s, 400)
        else if req.fileSize > 10 * 1024 * 1024 then (s, 400)
        else if req.fileSize = 0 then (s, 400)
        else
          match req.ocrText with
          | none => (s, 500)
          | some t =>
            if t = "" ∨ pyStrip t = "" then (s, 400)
            else
              let _answerFinal := if t.length > 10000 then t.take 10000 else t
              ({ user := user', entries := now :: s.entries }, 201)
      else
        -- modality = "audio" (the only remaining validated modality)
        if ¬ req.filePresent then (s, 400)
        else if req.filename = "" then (s, 400)
        else if ¬ allowed_audio_file req.filename then (s, 400)
        else (s, 501)

/-! ## PII redaction (`src/backend/bp/chat.py` lines 40-55 and
`src/backend/bp/analytics.py` lines 13-34)

Both files apply the same six `re.sub` substitutions.  The substitutions
are modelled by a small backtracking regular-expression engine with
Python `re` semantics: leftmost match, greedy repetition with
backtracking, alternatives tried left to right, `\b` as a word/non-word
transition.  Character classes are the ASCII reading of the patterns
(`\d`, `[A-Za-z...]`, `\s`, `\w`), which is exact on ASCII text. -/

/-- Python string slicing `s[:n]` (by characters). -/
def pyTake (s : String) (n : Nat) : String :=
  String.mk (s.data.take n)

/-- Regular expressions, restricted to the constructs the six patterns
use. -/
inductive RE where
  | cls (p : Char → Bool)
  | str (cs : List Char) (ci : Bool)
  | seq (a b : RE)
  | alt (a b : RE)
  | rep (r : RE) (lo : Nat) (hi : Option Nat)
  | wb

/-- `\w` (ASCII). -/
def wordChar (c : Char) : Bool := c.isAlpha || c.isDigit || c == '_'

/-- `\b`: exactly one side of the current position is a word character
(string ends count as non-word). -/
def atBoundary (prev : Option Char) (cs : List Char) : Bool :=
  let l := match prev with | none => false | some c => wordChar c
  let r := match cs with | [] => false | c :: _ => wordChar c
  l != r

/-- Literal comparison, case-insensitively under `re.IGNORECASE`. -/
def litChar (ci : Bool) (a b : Char) : Bool :=
  if ci then a.toLower == b.toLower else a == b

/-- Backtracking matcher in continuation style: `k` receives the last
consumed character (left context for `\b`) and the remaining input; the
first success in preference order (greedy repetitions, left alternative
first) wins, as in Python `re`.  `fuel` bounds the recursion; every
pattern below consumes at least one character per repetition, so a fuel
linear in the input length suffices. -/
def mrun (fuel : Nat) (r : RE) (prev : Option Char) (cs : List Char)
    (k : Option Char → List Char → Option (List Char)) : Option (List Char) :=
  match fuel with
  | 0 => none
  | fuel + 1 =>
    match r with
    | .wb => if atBoundary prev cs then k prev cs else none
    | .cls p =>
      match cs with
      | [] => none
      | c :: rest => if p c then k (some c) rest else none
    | .str l ci =>
      let n := l.length
      let taken := cs.take n
      if taken.length = n &&
          (List.zip l taken).all (fun ab => litChar ci ab.1 ab.2) then
        k (if n = 0 then prev else taken.getLast?) (cs.drop n)
      else none
    | .seq a b => mrun fuel a prev cs (fun p2 cs2 => mrun fuel b p2 cs2 k)
    | .alt a b =>
      match mrun fuel a prev cs k with
      | some res => some res
      | none => mrun fuel b prev cs k
    | .rep r lo hi =>
      match hi with
      | some 0 => k prev cs
      | _ =>
        let hi' := hi.map (· - 1)
        if lo = 0 then
          match mrun fuel r prev cs
              (fun p2 cs2 => mrun fuel (.rep r 0 hi') p2 cs2 k) with
          | some res => some res
          | none => k prev cs
        else
          mrun fuel r prev cs
            (fun p2 cs2 => mrun fuel (.rep r (lo - 1) hi') p2 cs2 k)

/-- Length of the match of `pat` at the current position, if any. -/
def tryMatchAt (fuel : Nat) (pat : RE) (prev : Option Char) (cs : List Char) :
    Option Nat :=
  match mrun fuel pat prev cs (fun _ rest => some rest) with
  | some rest => some (cs.length - rest.length)
  | none => none

/-- Matcher fuel for an input suffix; generous bound for the patterns
below (each repetition step consumes a character). -/
def subFuel (cs : List Char) : Nat := 64 * cs.length + 256

/-- `re.sub` scan: left to right over the original text, non-overlapping
matches replaced by `repl`, scanning resumes after each match with the
matched text's last character as left context.  The patterns below never
match the empty string (each has a mandatory consuming atom), so a
zero-length match is treated as no match. -/
def subAt (pat : RE) (repl : List Char) :
    Nat → Option Char → List Char → List Char
  | 0, _, _ => []
  | fuel + 1, prev, cs =>
    match tryMatchAt (subFuel cs) pat prev cs with
    | some (n + 1) =>
      let matched := cs.take (n + 1)
      repl ++ subAt pat repl fuel matched.getLast? (cs.drop (n + 1))
    | _ =>
      match cs with
      | [] => []
      | c :: rest => c :: subAt pat repl fuel (some c) rest

/-- `re.sub(pat, repl, s)`. -/
def pyReSub (pat : RE) (repl : String) (s : String) : String :=
  String.mk (subAt pat repl.data (s.data.length + 1) none s.data)

/-- Sequence of regex atoms. -/
def seqList : List RE → RE
  | [] => .str [] false
  | [r] => r
  | r :: rs => .seq r (seqList rs)

/-- Alternation tried left to right. -/
def altList : List RE → RE
  | [] => .str [] false
  | [r] => r
  | r :: rs => .alt r (altList rs)

/-- `[A-Za-z0-9._%+-]`. -/
def emailLocalC (c : Char) : Bool :=
  c.isAlpha || c.isDigit || c == '.' || c == '_' || c == '%' || c == '+' || c == '-'

/-- `[A-Za-z0-9.-]`. -/
def emailDomainC (c : Char) : Bool :=
  c.isAlpha || c.isDigit || c == '.' || c == '-'

/-- `[A-Z|a-z]` — the source class literally includes `|`. -/
def emailTldC (c : Char) : Bool :=
  c.isAlpha || c == '|'

/-- `\d` (ASCII). -/
def digitC (c : Char) : Bool := c.isDigit

/-- `[-.]`. -/
def dashDotC (c : Char) : Bool := c == '-' || c == '.'

/-- `\s` (ASCII). -/
def pySpaceC (c : Char) : Bool := isPySpace c

/-- `[-\s]`. -/
def cardSepC (c : Char) : Bool := c == '-' || isPySpace c

/-- `[A-Za-z\s]`. -/
def letterSpaceC (c : Char) : Bool := c.isAlpha || isPySpace c

/-- `\b[A-Za-z0-9._%+-]+@[A-Za-z0-9.-]+\.[A-Z|a-z]{2,}\b`. -/
def emailRE : RE :=
  seqList [.wb, .rep (.cls emailLocalC) 1 none, .str ['@'] false,
    .rep (.cls emailDomainC) 1 none, .str ['.'] false,
    .rep (.cls emailTldC) 2 none, .wb]

/-- `\b\d{3}[-.]?\d{3}[-.]?\d{4}\b`. -/
def phone1RE : RE :=
  seqList [.wb, .rep (.cls digitC) 3 (some 3), .rep (.cls dashDotC) 0 (some 1),
    .rep (.cls digitC) 3 (some 3), .rep (.cls dashDotC) 0 (some 1),
    .rep (.cls digitC) 4 (some 4), .wb]

/-- `\b\(\d{3}\)\s?\d{3}[-.]?\d{4}\b`. -/
def phone2RE : RE :=
  seqList [.wb, .str ['('] false, .rep (.cls digitC) 3 (some 3), .str [')'] false,
    .rep (.cls pySpaceC) 0 (some 1), .rep (.cls digitC) 3 (some 3),
    .rep (.cls dashDotC) 0 (some 1), .rep (.cls digitC) 4 (some 4), .wb]

/-- `\b\d{3}-\d{2}-\d{4}\b`. -/
def ssnRE : RE :=
  seqList [.wb, .rep (.cls digitC) 3 (some 3), .str ['-'] false,
    .rep (.cls digitC) 2 (some 2), .str ['-'] false,
    .rep (.cls digitC) 4 (some 4), .wb]

/-- `\b\d{4}[-\s]?\d{4}[-\s]?\d{4}[-\s]?\d{4}\b`. -/
def cardRE : RE :=
  seqList [.wb, .rep (.cls digitC) 4 (some 4), .rep (.cls cardSepC) 0 (some 1),
    .rep (.cls digitC) 4 (some 4), .rep (.cls cardSepC) 0 (some 1),
    .rep (.cls digitC) 4 (some 4), .rep (.cls cardSepC) 0 (some 1),
    .rep (.cls digitC) 4 (some 4), .wb]

/-- Street suffix alternatives, in source order. -/
def streetWords : List (List Char) :=
  ["Street".data, "St".data, "Avenue".data, "Ave".data, "Road".data, "Rd".data,
   "Boulevard".data, "Blvd".data, "Drive".data, "Dr".data, "Lane".data, "Ln".data]

/-- `\b\d+\s+[A-Za-z\s]+(Street|St|...|Ln)\b` with `re.IGNORECASE`. -/
def addressRE : RE :=
  seqList [.wb, .rep (.cls digitC) 1 none, .rep (.cls pySpaceC) 1 none,
    .rep (.cls letterSpaceC) 1 none,
    altList (streetWords.map (fun w => RE.str w true)), .wb]

/-- The six redaction substitutions, in source order: email, phone
(two formats), SSN, card, address. -/
def redactPipeline (text : String) : String :=
  let text := pyReSub emailRE "[EMAIL]" text
  let text := pyReSub phone1RE "[PHONE]" text
  let text := pyReSub phone2RE "[PHONE]" text
  let text := pyReSub ssnRE "[SSN]" text
  let text := pyReSub cardRE "[CARD]" text
  pyReSub addressRE "[ADDRESS]" text

/-- `sanitize_journal_content_for_ai(text, max_length=150)` from
`chat.py` lines 40-55: empty for falsy input, otherwise the six
substitutions followed by `text[:max_length].strip()`. -/
def sanitize_journal_content_for_ai (text : String) (maxLength : Nat := 150) :
    String :=
  if text = "" then ""
  else
    let text := pyReSub emailRE "[EMAIL]" text
    let text := pyReSub phone1RE "[PHONE]" text
    let text := pyReSub phone2RE "[PHONE]" text
    let text := pyReSub ssnRE "[SSN]" text
    let text := pyReSub cardRE "[CARD]" text
    let text := pyReSub addressRE "[ADDRESS]" text
    pyStrip (pyTake text maxLength)

/-- `remove_sensitive_info(text)` from `analytics.py` lines 13-34: the
same six substitutions followed by `text.strip()`; falsy input is
returned unchanged. -/
def remove_sensitive_info (text : String) : String :=
  if text = "" then text
  else
    let text := pyReSub emailRE "[EMAIL]" text
    let text := pyReSub phone1RE "[PHONE]" text
    let text := pyReSub phone2RE "[PHONE]" text
    let text := pyReSub ssnRE "[SSN]" text
    let text := pyReSub cardRE "[CARD]" text
    let text := pyReSub addressRE "[ADDRESS]" text
    pyStrip text

/-- Modelled from the spec (§4.2): `sanitize(text, maxLength)` with the
order of operations the spec asserts — truncate to `maxLength` FIRST,
then apply the six redaction substitutions, for the refinement
comparison of claim C2. -/
def sanitizeTruncateFirstSpec (text : String) (maxLength : Nat := 150) :
    String :=
  if text = "" then ""
  else pyStrip (redactPipeline (pyTake text maxLength))

/-! ## AI context formatting (`chat.py` lines 57-83, `analytics.py` lines
36-60) -/

/-- A zero-padded two-digit `strftime` field. -/
def pad2 (n : Nat) : String :=
  if n < 10 then "0" ++ toString n else toString n

/-- The fields of a journal entry that the AI formatting helpers read:
the creation date's month and day (for `strftime("%m-%d")`), the
modality, the prompt and the answer. -/
structure AiEntry where
  month : Nat
  day : Nat
  modality : String
  prompt : String
  answer : String
  deriving DecidableEq, Repr

/-- `strftime("%m-%d")`. -/
def AiEntry.dateStr (e : AiEntry) : String :=
  pad2 e.month ++ "-" ++ pad2 e.day

/-- `sanitize_entries_for_ai(entries, max_entries=31)` from
`analytics.py` lines 36-60: per entry, truncate `prompt` to 50 and
`answer` to 200 characters, then redact each with
`remove_sensitive_info`, and join the formatted lines with blank
lines. -/
def sanitize_entries_for_ai (entries : List AiEntry) (max_entries : Nat := 31) :
    String :=
  let limited_entries := entries.take max_entries
  let formatted_entries := limited_entries.map (fun entry =>
    let prompt := if entry.prompt = "" then "" else pyTake entry.prompt 50
    let answer := if entry.answer = "" then "" else pyTake entry.answer 200
    let prompt := remove_sensitive_info prompt
    let answer := remove_sensitive_info answer
    "Date: " ++ entry.dateStr ++ ", Modality: " ++ entry.modality ++
      ", Topic: " ++ prompt ++ ", Content: " ++ answer)
  String.intercalate "\n\n" formatted_entries

/-- `format_entries_for_initial_context(entries)` from `chat.py` lines
57-83: empty string for an empty entry list; otherwise entries whose
sanitized prompt (≤50) or sanitized answer (≤100) is empty are dropped,
the fixed no-activity sentence is returned when none survive, and at
most five formatted lines are wrapped in the primer text otherwise. -/
def format_entries_for_initial_context (entries : List AiEntry) : String :=
  if entries = [] then ""
  else
    let formatted_entries_list := entries.filterMap (fun entry =>
      let prompt_clean := sanitize_journal_content_for_ai entry.prompt 50
      let answer_clean := sanitize_journal_content_for_ai entry.answer 100
      if prompt_clean ≠ "" ∧ answer_clean ≠ "" then
        some ("- On " ++ entry.dateStr ++ ", topic: '" ++ prompt_clean ++
          "'. Response: '" ++ answer_clean ++ "'")
      else none)
    if formatted_entries_list = [] then
      "No recent journal activity to reference."
    else
      "Here's a brief overview of recent journal activity for context:\n" ++
        String.intercalate "\n" (formatted_entries_list.take 5) ++
        "\n\nNow, how can I help you today?"

/-! ## Conversation codec (`src/backend/models.py` lines 81-96)

`Conversation.set_chat_data(data)` stores `json.dumps(data)`; `Conversation.get_chat_data()` returns
`[]` for a null/empty blob, `json.loads(chat)` otherwise, and `[]` when
`json.loads` raises `JSONDecodeError`.  `json.dumps` is modelled with its
default settings (separators `", "` and `": "`, `ensure_ascii` escaping
with `\uXXXX` and surrogate pairs), and `json.loads` by a
recursive-descent parser over the full grammar Python's decoder accepts:
strings with short and `\uXXXX` escapes and strict rejection of literal
control characters, numbers after Python's
`(-?(0|[1-9]\d*))(\.\d+)?([eE][-+]?\d+)?` regex plus the `NaN`,
`Infinity` and `-Infinity` constants, arrays and objects with the same
delimiter rules.  Two disclosed boundaries: a float literal is carried as
its matched text (`Json.fnum`) rather than an IEEE double — the chat
codec never produces floats, so only the success or failure of parsing
one matters here — and an unpaired `\uD800`-`\uDFFF` escape, which
Python keeps as a lone surrogate in the decoded `str`, decodes to U+FFFD
because a Lean `Char` cannot hold a surrogate; decode success and
failure agree with `json.loads` in both cases. -/

inductive Json where
  | null
  | bool (b : Bool)
  | num (n : Int)
  | fnum (lit : String)
  | str (s : String)
  | arr (xs : List Json)
  | obj (kvs : List (String × Json))
  deriving Repr

def hexDigit (n : Nat) : Char :=
  if n < 10 then Char.ofNat (48 + n) else Char.ofNat (87 + n)

def uEsc (n : Nat) : List Char :=
  ['\\', 'u', hexDigit (n / 4096 % 16), hexDigit (n / 256 % 16),
   hexDigit (n / 16 % 16), hexDigit (n % 16)]

def escapeChar (c : Char) : List Char :=
  if c = '"' then ['\\', '"']
  else if c = '\\' then ['\\', '\\']
  else if c.toNat = 8 then ['\\', 'b']
  else if c.toNat = 12 then ['\\', 'f']
  else if c = '\n' then ['\\', 'n']
  else if c = '\r' then ['\\', 'r']
  else if c = '\t' then ['\\', 't']
  else if 32 ≤ c.toNat ∧ c.toNat ≤ 126 then [c]
  else if c.toNat < 65536 then uEsc c.toNat
  else uEsc (55296 + (c.toNat - 65536) / 1024) ++ uEsc (56320 + (c.toNat - 65536) % 1024)

def escapeBody (cs : List Char) : List Char :=
  match cs with
  | [] => []
  | c :: rest => escapeChar c ++ escapeBody rest

def encodeStr (s : String) : List Char :=
  '"' :: escapeBody s.data ++ ['"']

mutual

def Json.render : Json → List Char
  | .null => 'n' :: 'u' :: 'l' :: 'l' :: []
  | .bool true => 't' :: 'r' :: 'u' :: 'e' :: []
  | .bool false => 'f' :: 'a' :: 'l' :: 's' :: 'e' :: []
  | .num n => (toString n).data
  | .fnum lit => lit.data
  | .str s => encodeStr s
  | .arr xs => '[' :: renderElems xs ++ [']']
  | .obj kvs => '{' :: renderMembers kvs ++ ['}']

def renderElems : List Json → List Char
  | [] => []
  | [x] => Json.render x
  | x :: xs => Json.render x ++ ',' :: ' ' :: renderElems xs

def renderMembers : List (String × Json) → List Char
  | [] => []
  | [(k, v)] => encodeStr k ++ ':' :: ' ' :: Json.render v
  | (k, v) :: kvs =>
    encodeStr k ++ ':' :: ' ' :: Json.render v ++ ',' :: ' ' :: renderMembers kvs

end

def jsonDumps (v : Json) : String := String.mk (Json.render v)

def jsonWs (c : Char) : Bool :=
  c == ' ' || c == '\t' || c == '\n' || c == '\r'

def skipWs (cs : List Char) : List Char := cs.dropWhile jsonWs

def hexVal (c : Char) : Option Nat :=
  if 48 ≤ c.toNat ∧ c.toNat ≤ 57 then some (c.toNat - 48)
  else if 97 ≤ c.toNat ∧ c.toNat ≤ 102 then some (c.toNat - 87)
  else if 65 ≤ c.toNat ∧ c.toNat ≤ 70 then some (c.toNat - 55)
  else none

def shortEsc (e : Char) : Option Char :=
  if e = '"' then some '"'
  else if e = '\\' then some '\\'
  else if e = '/' then some '/'
  else if e = 'b' then some (Char.ofNat 8)
  else if e = 'f' then some (Char.ofNat 12)
  else if e = 'n' then some '\n'
  else if e = 'r' then some '\r'
  else if e = 't' then some '\t'
  else none

def parseStringBody (fuel : Nat) (inp : List Char) :
    Option (List Char × List Char) :=
  match fuel with
  | 0 => none
  | fuel + 1 =>
    match inp with
    | [] => none
    | c :: rest =>
      if c = '"' then some ([], rest)
      else if c = '\\' then
        match rest with
        | [] => none
        | e :: rest2 =>
          if e = 'u' then
            match rest2 with
            | h1 :: h2 :: h3 :: h4 :: rest3 =>
              match hexVal h1, hexVal h2, hexVal h3, hexVal h4 with
              | some a, some b, some cc, some d =>
                let n := 4096 * a + 256 * b + 16 * cc + d
                if n < 55296 ∨ 57344 ≤ n then
                  match parseStringBody fuel rest3 with
                  | some (cs, r) => some (Char.ofNat n :: cs, r)
                  | none => none
                else if n < 56320 then
                  match rest3 with
                  | '\\' :: 'u' :: g1 :: g2 :: g3 :: g4 :: rest4 =>
                    match hexVal g1, hexVal g2, hexVal g3, hexVal g4 with
                    | some a2, some b2, some c2, some d2 =>
                      let m := 4096 * a2 + 256 * b2 + 16 * c2 + d2
                      if 56320 ≤ m ∧ m < 57344 then
                        match parseStringBody fuel rest4 with
                        | some (cs, r) =>
                          some (Char.ofNat
                            (65536 + (n - 55296) * 1024 + (m - 56320)) :: cs, r)
                        | none => none
                      else
                        match parseStringBody fuel rest3 with
                        | some (cs, r) => some (Char.ofNat 65533 :: cs, r)
                        | none => none
                    | _, _, _, _ => none
                  | _ =>
                    match parseStringBody fuel rest3 with
                    | some (cs, r) => some (Char.ofNat 65533 :: cs, r)
                    | none => none
                else
                  match parseStringBody fuel rest3 with
                  | some (cs, r) => some (Char.ofNat 65533 :: cs, r)
                  | none => none
              | _, _, _, _ => none
            | _ => none
          else
            match shortEsc e with
            | some d =>
              match parseStringBody fuel rest2 with
              | some (cs, r) => some (d :: cs, r)
              | none => none
            | none => none
      else if c.toNat < 32 then none
      else
        match parseStringBody fuel rest with
        | some (cs, r) => some (c :: cs, r)
        | none => none

def digitsToNat (ds : List Char) : Nat :=
  ds.foldl (fun acc c => 10 * acc + (c.toNat - 48)) 0

/-- The integer part of Python's JSON number regex, `-?(0|[1-9]\d*)` with
the sign already consumed by the caller: a single `0`, or a nonzero digit
followed by any further digits.  Returns the matched digits and the rest
of the input, or `none` when no integer part starts here. -/
def parseIntPart : List Char → Option (List Char × List Char)
  | [] => none
  | c :: rest =>
    if c = '0' then some (['0'], rest)
    else if c.isDigit then
      some (c :: rest.takeWhile Char.isDigit, rest.dropWhile Char.isDigit)
    else none

/-- The optional fraction part `(\.\d+)?`: the matched characters (empty
when the part is absent — a `.` not followed by a digit is not consumed)
and the rest of the input. -/
def parseFracPart : List Char → List Char × List Char
  | '.' :: rest =>
    if rest.takeWhile Char.isDigit = [] then ([], '.' :: rest)
    else ('.' :: rest.takeWhile Char.isDigit, rest.dropWhile Char.isDigit)
  | cs => ([], cs)

/-- The optional exponent part `([eE][-+]?\d+)?`: the matched characters
(empty when absent — an `e` without following digits is not consumed)
and the rest of the input. -/
def parseExpPart : List Char → List Char × List Char
  | e :: s :: rest =>
    if e = 'e' ∨ e = 'E' then
      if s = '+' ∨ s = '-' then
        if rest.takeWhile Char.isDigit = [] then ([], e :: s :: rest)
        else (e :: s :: rest.takeWhile Char.isDigit, rest.dropWhile Char.isDigit)
      else
        if (s :: rest).takeWhile Char.isDigit = [] then ([], e :: s :: rest)
        else (e :: (s :: rest).takeWhile Char.isDigit,
          (s :: rest).dropWhile Char.isDigit)
    else ([], e :: s :: rest)
  | cs => ([], cs)

/-- A JSON number at the head of the input, after Python's
`NUMBER_RE = (-?(0|[1-9]\d*))(\.\d+)?([eE][-+]?\d+)?` (the scanner then
applies `int` to a bare integer match and `float` when a fraction or
exponent is present): an integer match yields `num`, a float match
yields `fnum` holding the matched text. -/
def parseNumber (neg : Bool) (cs : List Char) : Option (Json × List Char) :=
  match parseIntPart cs with
  | none => none
  | some (ip, rest1) =>
    let (fp, rest2) := parseFracPart rest1
    let (ep, rest3) := parseExpPart rest2
    if fp = [] ∧ ep = [] then
      some (.num (if neg then -(digitsToNat ip : Int) else (digitsToNat ip : Int)),
        rest3)
    else
      some (.fnum (String.mk ((if neg then ['-'] else []) ++ ip ++ fp ++ ep)), rest3)

mutual

def parseValue (fuel : Nat) (cs : List Char) : Option (Json × List Char) :=
  match fuel with
  | 0 => none
  | fuel + 1 =>
    match skipWs cs with
    | 'n' :: 'u' :: 'l' :: 'l' :: rest => some (.null, rest)
    | 't' :: 'r' :: 'u' :: 'e' :: rest => some (.bool true, rest)
    | 'f' :: 'a' :: 'l' :: 's' :: 'e' :: rest => some (.bool false, rest)
    | '"' :: rest =>
      match parseStringBody (rest.length + 1) rest with
      | some (content, rest2) => some (.str (String.mk content), rest2)
      | none => none
    | '[' :: rest =>
      if (skipWs rest).head? = some ']' then some (.arr [], (skipWs rest).tail)
      else
        match parseElems fuel rest with
        | some (vs, rest2) => some (.arr vs, rest2)
        | none => none
    | '{' :: rest =>
      if (skipWs rest).head? = some '}' then some (.obj [], (skipWs rest).tail)
      else
        match parseMembers fuel rest with
        | some (ms, rest2) => some (.obj ms, rest2)
        | none => none
    | '-' :: rest =>
      match parseNumber true rest with
      | some r => some r
      | none =>
        match rest with
        | 'I' :: 'n' :: 'f' :: 'i' :: 'n' :: 'i' :: 't' :: 'y' :: rest2 =>
          some (.fnum "-Infinity", rest2)
        | _ => none
    | 'N' :: 'a' :: 'N' :: rest => some (.fnum "NaN", rest)
    | 'I' :: 'n' :: 'f' :: 'i' :: 'n' :: 'i' :: 't' :: 'y' :: rest =>
      some (.fnum "Infinity", rest)
    | c :: rest =>
      if c.isDigit then parseNumber false (c :: rest)
      else none
    | [] => none

def parseElems (fuel : Nat) (cs : List Char) : Option (List Json × List Char) :=
  match fuel with
  | 0 => none
  | fuel + 1 =>
    match parseValue fuel cs with
    | none => none
    | some (v, rest) =>
      match skipWs rest with
      | ',' :: rest2 =>
        match parseElems fuel rest2 with
        | some (vs, rest3) => some (v :: vs, rest3)
        | none => none
      | ']' :: rest2 => some ([v], rest2)
      | _ => none

def parseMembers (fuel : Nat) (cs : List Char) :
    Option (List (String × Json) × List Char) :=
  match fuel with
  | 0 => none
  | fuel + 1 =>
    match skipWs cs with
    | '"' :: rest =>
      match parseStringBody (rest.length + 1) rest with
      | some (k, rest2) =>
        match skipWs rest2 with
        | ':' :: rest3 =>
          match parseValue fuel rest3 with
          | some (v, rest4) =>
            match skipWs rest4 with
            | ',' :: rest5 =>
              match parseMembers fuel rest5 with
              | some (ms, rest6) => some ((String.mk k, v) :: ms, rest6)
              | none => none
            | '}' :: rest5 => some ([(String.mk k, v)], rest5)
            | _ => none
          | none => none
        | _ => none
      | none => none
    | _ => none

end

def jsonLoads (s : String) : Option Json :=
  match parseValue (s.length + 1) s.data with
  | some (v, rest) => if skipWs rest = [] then some v else none
  | none => none

/-- The shapes the chat codec stores: JSON values built from null,
booleans, strings (any characters), arrays and objects.
`set_chat_data` only ever receives lists of turn objects with string
fields, so numeric leaves never occur and the round-trip lemma is proved
on this fragment. -/
inductive ChatJson : Json → Prop where
  | null : ChatJson .null
  | bool (b : Bool) : ChatJson (.bool b)
  | str (s : String) : ChatJson (.str s)
  | arr (xs : List Json) : (∀ v ∈ xs, ChatJson v) → ChatJson (.arr xs)
  | obj (kvs : List (String × Json)) : (∀ kv ∈ kvs, ChatJson kv.2) →
      ChatJson (.obj kvs)

structure Turn where
  role : String
  parts : List String
  deriving DecidableEq, Repr

def turnsToJson (ts : List Turn) : Json :=
  .arr (ts.map (fun t =>
    .obj [("role", .str t.role), ("parts", .arr (t.parts.map Json.str))]))

def Conversation.get_chat_data (chat : Option String) : Json :=
  match chat with
  | none => .arr []
  | some s =>
    if s = "" then .arr []
    else
      match jsonLoads s with
      | some v => v
      | none => .arr []

def Conversation.set_chat_data (data : Json) : Option String :=
  some (jsonDumps data)


/-! ## AI response validation (`src/backend/bp/analytics.py` lines
146-201) and the AI-call wrappers (`chat.py` lines 85-127,
`analytics.py` lines 62-144)

`validate_ai_response` receives the object decoded by `json.loads`;
Python truthiness and `str()` are modelled on `Json` values (`str()` of a
container is its `repr`, modelled for ASCII content). -/

/-- Whether a float literal denotes zero: every mantissa digit is `0`
(the `NaN`/`Infinity`/`-Infinity` constants are not zero).  IEEE
underflow of a tiny nonzero literal to `0.0` is outside the model. -/
def floatLitIsZero (lit : String) : Bool :=
  !(lit == "NaN" || lit == "Infinity" || lit == "-Infinity") &&
  (lit.data.takeWhile (fun c => !(c == 'e' || c == 'E'))).all
    (fun c => !c.isDigit || c == '0')

/-- Python truthiness of a decoded JSON value (a float is falsy exactly
when it equals `0.0`). -/
def pyTruthy : Json → Bool
  | .null => false
  | .bool b => b
  | .num n => n != 0
  | .fnum lit => !floatLitIsZero lit
  | .str s => s != ""
  | .arr xs => !xs.isEmpty
  | .obj kvs => !kvs.isEmpty

/-- One character of a Python `repr` string literal, `q` being the chosen
quote character.  ASCII rules; printable non-ASCII is kept as-is. -/
def pyReprEsc (q c : Char) : List Char :=
  if c = '\\' then ['\\', '\\']
  else if c = q then ['\\', q]
  else if c = '\n' then ['\\', 'n']
  else if c = '\r' then ['\\', 'r']
  else if c = '\t' then ['\\', 't']
  else if c.toNat < 32 || c.toNat = 127 then
    ['\\', 'x', hexDigit (c.toNat / 16 % 16), hexDigit (c.toNat % 16)]
  else [c]

/-- Python `repr` of a string: single quotes unless the string contains a
single quote and no double quote. -/
def pyReprStr (s : String) : String :=
  let q := if s.data.contains '\'' && !s.data.contains '"' then '"' else '\''
  String.mk (q :: (s.data.flatMap (pyReprEsc q)) ++ [q])

mutual

/-- Python `repr` of a decoded JSON value.  A float prints via
`float.__repr__`; its normalisation of the source literal is outside the
model, which keeps the matched text. -/
def pyRepr : Json → String
  | .null => "None"
  | .bool true => "True"
  | .bool false => "False"
  | .num n => toString n
  | .fnum lit => lit
  | .str s => pyReprStr s
  | .arr xs => "[" ++ pyReprList xs ++ "]"
  | .obj kvs => "\x7b" ++ pyReprObj kvs ++ "\x7d"

def pyReprList : List Json → String
  | [] => ""
  | [x] => pyRepr x
  | x :: xs => pyRepr x ++ ", " ++ pyReprList xs

def pyReprObj : List (String × Json) → String
  | [] => ""
  | [(k, v)] => pyReprStr k ++ ": " ++ pyRepr v
  | (k, v) :: kvs => pyReprStr k ++ ": " ++ pyRepr v ++ ", " ++ pyReprObj kvs

end

/-- Python `str()` of a decoded JSON value. -/
def pyStr : Json → String
  | .str s => s
  | v => pyRepr v

/-- Lookup in a Python dict built by `json.loads` (a later duplicate key
wins). -/
def dictGet (kvs : List (String × Json)) (k : String) : Option Json :=
  (kvs.reverse.find? (fun kv => kv.1 = k)).map (fun kv => kv.2)

/-- The validated analysis payload: exactly the three fields. -/
structure Validated where
  patterns : List String
  insights : List String
  suggested_prompts : List String
  deriving DecidableEq, Repr

/-- The fixed default `patterns` list of `validate_ai_response`. -/
def defaultPatterns : List String :=
  ["Continue journaling to identify patterns in your thoughts and experiences"]

/-- The fixed default `insights` list of `validate_ai_response`. -/
def defaultInsights : List String :=
  ["Your journaling practice shows commitment to self-reflection and growth"]

/-- The fixed default `suggested_prompts` list of `validate_ai_response`. -/
def defaultPrompts : List String :=
  ["What did I learn about myself today?",
   "What am I most grateful for right now?",
   "How have I grown or changed recently?"]

/-- One field of `validate_ai_response`: Python
`[str(p)[:maxLen] for p in result[key][:cap] if p]` when the key is
present with a list value, `[]` otherwise — the slice to `cap` comes
first, the truthiness filter second. -/
def clampField (v : Option Json) (cap maxLen : Nat) : List String :=
  match v with
  | some (.arr xs) => ((xs.take cap).filter pyTruthy).map (fun p => pyTake (pyStr p) maxLen)
  | _ => []

/-- `validate_ai_response(result)` from `analytics.py` lines 146-180, on
a decoded JSON object. -/
def validate_ai_response (result : List (String × Json)) : Validated :=
  let patterns := clampField (dictGet result "patterns") 5 200
  let insights := clampField (dictGet result "insights") 3 300
  let suggested_prompts := clampField (dictGet result "suggested_prompts") 5 150
  { patterns := if patterns = [] then defaultPatterns else patterns
    insights := if insights = [] then defaultInsights else insights
    suggested_prompts := if suggested_prompts = [] then defaultPrompts
      else suggested_prompts }

/-- Modelled from the spec: the per-field clamping order the claim
asserts — falsy items dropped first, the count cap applied second. -/
def clampFieldSpecOrder (v : Option Json) (cap maxLen : Nat) : List String :=
  match v with
  | some (.arr xs) => ((xs.filter pyTruthy).take cap).map (fun p => pyTake (pyStr p) maxLen)
  | _ => []

/-- `get_fallback_analysis()` from `analytics.py` lines 182-201. -/
def get_fallback_analysis : Validated :=
  { patterns :=
      ["Your consistent journaling shows dedication to self-reflection",
       "You're actively engaging with your thoughts and experiences",
       "Regular writing practice indicates commitment to personal growth"]
    insights :=
      ["Maintaining a journal demonstrates self-awareness and mindfulness",
       "Your writing practice creates space for processing daily experiences"]
    suggested_prompts :=
      ["What did I accomplish today that I'm proud of?",
       "What challenge helped me learn something new about myself?",
       "What am I looking forward to in the coming days?",
       "How did I show kindness to myself or others today?",
       "What would I like to focus on improving tomorrow?"] }

/-- `sub in s` for Python strings. -/
def containsSub (sub : List Char) : List Char → Bool
  | [] => sub.isEmpty
  | c :: rest => sub.isPrefixOf (c :: rest) || containsSub sub rest

/-- Python `sub in s`. -/
def pyIn (sub s : String) : Bool := containsSub sub.data s.data

/-- Python `str.lower()` (ASCII). -/
def pyLower (s : String) : String := String.mk (s.data.map Char.toLower)

/-- `"quota" in error_str or "limit" in error_str` on the lowercased
error text. -/
def quotaLike (msg : String) : Bool :=
  pyIn "quota" (pyLower msg) || pyIn "limit" (pyLower msg)

/-- `"safety" in error_str` on the lowercased error text. -/
def safetyLike (msg : String) : Bool := pyIn "safety" (pyLower msg)

/-- What one Gemini chat attempt can produce, as `call_gemini_api`
observes it: a safety-blocked response, a response with content text, a
response with no candidates/parts, or a raised exception. -/
inductive GeminiOutcome where
  | blocked
  | content (text : String)
  | empty
  | exn (msg : String)

/-- The loop body of `call_gemini_api` (`chat.py` lines 85-127),
driven by an oracle giving each attempt's outcome; returns the reply
text and the number of attempts made.  `remaining` counts the loop
iterations left (`retries + 1 - attempt`). -/
def call_gemini_api_loop (outcomes : Nat → GeminiOutcome) (retries : Nat) :
    Nat → Nat → String × Nat
  | attempt, 0 =>
    ("Sorry, I encountered an issue and couldn't process your message.", attempt)
  | attempt, remaining + 1 =>
    match outcomes attempt with
    | .blocked =>
      ("I can't respond to that request. Let's try discussing something else.",
        attempt + 1)
    | .content t =>
      if pyStrip t ≠ "" then (pyStrip t, attempt + 1)
      else ("I'm having trouble forming a response. Could you try rephrasing?",
        attempt + 1)
    | .empty =>
      if attempt < retries then
        call_gemini_api_loop outcomes retries (attempt + 1) remaining
      else
        ("I'm currently unable to generate a response. Please try again.",
          attempt + 1)
    | .exn msg =>
      if quotaLike msg then
        ("I'm experiencing high demand right now. Please try again in a few minutes.",
          attempt + 1)
      else if safetyLike msg then
        ("I can't respond to that due to safety guidelines. Let's discuss something else.",
          attempt + 1)
      else if attempt = retries then
        ("I'm having technical difficulties. Please try again later.", attempt + 1)
      else call_gemini_api_loop outcomes retries (attempt + 1) remaining

/-- `call_gemini_api(model, contents, retries=2)`. -/
def call_gemini_api (outcomes : Nat → GeminiOutcome) (retries : Nat := 2) :
    String × Nat :=
  call_gemini_api_loop outcomes retries 0 (retries + 1)

/-- What one analysis attempt can produce, as `call_ai_service` observes
it: a raised exception, or a response carrying `response.text`. -/
inductive AIOutcome where
  | exn (msg : String)
  | resp (text : String)

/-- The markdown-fence stripping of `call_ai_service` (lines 105-117):
strip, drop a leading ```json or ``` fence, drop a trailing ``` fence,
strip again. -/
def stripFences (t : String) : String :=
  let clean := pyStrip t
  let clean :=
    if ("```json".data).isPrefixOf clean.data then String.mk (clean.data.drop 7)
    else if ("```".data).isPrefixOf clean.data then String.mk (clean.data.drop 3)
    else clean
  let clean :=
    if ("```".data).isSuffixOf clean.data then
      String.mk (clean.data.take (clean.data.length - 3))
    else clean
  pyStrip clean

/-- `validate_ai_response(result)` called on an arbitrary decoded value:
for a dict it validates; for a list or string, `"patterns" in result`
(element / substring membership) either is false for all three keys —
leaving every field empty, hence all defaults — or hits the indexing
`result["patterns"]`, which raises `TypeError`; for any other value the
`in` operator itself raises `TypeError`.  A raised error is reported as
`Except.error` with the exception text. -/
def validateTop : Json → Except String Validated
  | .obj kvs => .ok (validate_ai_response kvs)
  | .arr xs =>
    if xs.any (fun x => match x with
        | .str s => s = "patterns" || s = "insights" || s = "suggested_prompts"
        | _ => false) then
      .error "TypeError: list indices must be integers or slices, not str"
    else .ok (validate_ai_response [])
  | .str s =>
    if pyIn "patterns" s || pyIn "insights" s || pyIn "suggested_prompts" s then
      .error "TypeError: string indices must be integers"
    else .ok (validate_ai_response [])
  | _ => .error "TypeError: argument of type is not iterable"

/-- The loop body of `call_ai_service` (`analytics.py` lines 90-144),
driven by an oracle giving each attempt's outcome; returns the result
(`Except.error` = a raised `ValueError`'s message) and the number of
attempts made.  An empty `response.text` raises inside the `try` and is
handled by the same generic handler as any other exception; the
quota/limit classification happens only when `attempt == retries`. -/
def call_ai_service_loop (outcomes : Nat → AIOutcome) (retries : Nat) :
    Nat → Nat → Except String Validated × Nat
  | attempt, 0 => (.ok get_fallback_analysis, attempt)
  | attempt, remaining + 1 =>
    match outcomes attempt with
    | .exn msg =>
      if attempt = retries then
        if quotaLike msg then
          (.error "AI service quota exceeded. Please try again later.", attempt + 1)
        else
          (.error ("AI service temporarily unavailable: " ++ msg), attempt + 1)
      else call_ai_service_loop outcomes retries (attempt + 1) remaining
    | .resp t =>
      if t = "" then
        -- raise ValueError("Empty response from AI service"), caught below
        if attempt = retries then
          if quotaLike "Empty response from AI service" then
            (.error "AI service quota exceeded. Please try again later.", attempt + 1)
          else
            (.error ("AI service temporarily unavailable: " ++
              "Empty response from AI service"), attempt + 1)
        else call_ai_service_loop outcomes retries (attempt + 1) remaining
      else
        match jsonLoads (stripFences t) with
        | none =>
          if attempt = retries then (.ok get_fallback_analysis, attempt + 1)
          else call_ai_service_loop outcomes retries (attempt + 1) remaining
        | some v =>
          match validateTop v with
          | .ok val => (.ok val, attempt + 1)
          | .error msg =>
            if attempt = retries then
              if quotaLike msg then
                (.error "AI service quota exceeded. Please try again later.",
                  attempt + 1)
              else
                (.error ("AI service temporarily unavailable: " ++ msg), attempt + 1)
            else call_ai_service_loop outcomes retries (attempt + 1) remaining

/-- `call_ai_service(sanitized_entries, retries=2)`. -/
def call_ai_service (outcomes : Nat → AIOutcome) (retries : Nat := 2) :
    Except String Validated × Nat :=
  call_ai_service_loop outcomes retries 0 (retries + 1)

/-- An outcome oracle whose first attempt raises a quota error and whose
second attempt returns a well-formed (empty-object) JSON response. -/
def quotaThenOk : Nat → AIOutcome
  | 0 => .exn "429 quota exceeded for the model"
  | _ => .resp "\x7b\x7d"


/-- Ten pattern items, the first five falsy (empty strings): slicing to
the cap first leaves only falsy items. -/
def fiveEmptyThenFive : List Json :=
  [.str "", .str "", .str "", .str "", .str "",
   .str "a", .str "b", .str "c", .str "d", .str "e"]

/-- Ten non-empty pattern strings. -/
def tenTruthyPatterns : List Json :=
  [.str "p1", .str "p2", .str "p3", .str "p4", .str "p5",
   .str "p6", .str "p7", .str "p8", .str "p9", .str "p10"]


/-- An outcome (of the chat wrapper) that makes `call_gemini_api` move on
to the next attempt when attempts remain: an empty response, or an
exception whose text mentions neither quota/limit nor safety. -/
def chatRetryable (o : GeminiOutcome) : Prop :=
  o = .empty ∨ ∃ m, o = .exn m ∧ quotaLike m = false ∧ safetyLike m = false

/-! ## Theorems settling the claims, with their supporting lemmas -/

theorem Time.lt_iff {a b : Time} :
    Time.lt a b = true ↔ (a.day < b.day ∨ (a.day = b.day ∧ a.tick < b.tick)) := by
  simp [Time.lt]

theorem Time.lt_trans {a b c : Time} (h1 : Time.lt a b = true)
    (h2 : Time.lt b c = true) : Time.lt a c = true := by
  rw [Time.lt_iff] at h1 h2 ⊢
  omega

theorem Time.lt_day_le {a b : Time} (h : Time.lt a b = true) : a.day ≤ b.day := by
  rw [Time.lt_iff] at h
  omega

theorem midnight_le_iff {now e : Time} :
    Time.le (Time.midnight now) e = true ↔ now.day ≤ e.day := by
  simp only [Time.le, Time.midnight, Bool.or_eq_true, Bool.and_eq_true,
    decide_eq_true_eq, beq_iff_eq]
  omega

theorem countEntriesToday_eq_zero {entries : List Time} {now : Time} :
    countEntriesToday entries now = 0 ↔ ∀ e ∈ entries, e.day < now.day := by
  rw [countEntriesToday, List.length_eq_zero, List.filter_eq_nil_iff]
  constructor
  · intro h e he
    have := h e he
    rw [midnight_le_iff] at this
    omega
  · intro h e he
    have := h e he
    rw [midnight_le_iff]
    omega

theorem StrictlyIncreasing.tail {t : Time} {ts : List Time}
    (h : StrictlyIncreasing (t :: ts)) : StrictlyIncreasing ts := by
  cases ts with
  | nil => trivial
  | cons b ts => exact h.2

theorem StrictlyIncreasing.head_lt {t : Time} {ts : List Time}
    (h : StrictlyIncreasing (t :: ts)) : ∀ u ∈ ts, Time.lt t u = true := by
  induction ts generalizing t with
  | nil => intro u hu; cases hu
  | cons b ts ih =>
    intro u hu
    cases hu with
    | head => exact h.1
    | tail _ hu => exact Time.lt_trans h.1 (ih h.2 u hu)

theorem activityStep_sim {user : UserStreak} {entries : List Time} {t : Time}
    (hinv : EntriesInv user entries)
    (hahead : ∀ l, user.last_activity_date = some l → Time.lt l t = true) :
    (activityStep ⟨user, entries⟩ t).1 = (specStreakStep user t).1 ∧
    (activityStep ⟨user, entries⟩ t).2.user = (specStreakStep user t).2 ∧
    EntriesInv (activityStep ⟨user, entries⟩ t).2.user
      (activityStep ⟨user, entries⟩ t).2.entries ∧
    (∀ l, (activityStep ⟨user, entries⟩ t).2.user.last_activity_date = some l →
      l = t ∨ user.last_activity_date = some l) := by
  cases hu : user.last_activity_date with
  | none =>
    have hent : entries = [] := by
      simpa [EntriesInv, hu] using hinv
    subst hent
    refine ⟨?_, ?_, ?_, ?_⟩ <;>
      simp [activityStep, update_user_streak, specStreakStep, hu, EntriesInv,
        Int.max_comm]
  | some l =>
    have hlt : Time.lt l t = true := hahead l hu
    have hday : l.day ≤ t.day := Time.lt_day_le hlt
    have hent : ∀ e ∈ entries, e.day ≤ l.day := by
      simpa [EntriesInv, hu] using hinv
    by_cases hgap : Time.daysDiff t l = 0
    · -- same calendar day: rejected via either check, no mutation
      have hcode : activityStep ⟨user, entries⟩ t =
          (some duplicateEntryError, ⟨user, entries⟩) := by
        by_cases hcnt : countEntriesToday entries t > 0
        · simp [activityStep, update_user_streak, hu, hcnt]
        · have hcnt0 : ¬ countEntriesToday entries t > 0 := hcnt
          simp [activityStep, update_user_streak, hu, hcnt0, hgap]
      refine ⟨?_, ?_, ?_, ?_⟩
      · simp [hcode, specStreakStep, hu, hgap]
      · simp [hcode, specStreakStep, hu, hgap]
      · simpa [hcode, EntriesInv, hu] using hent
      · intro l' hl'
        right
        rw [hcode] at hl'
        simpa [hu] using hl'
    · -- a different (later) day: entry count is zero, gap rule applies
      have hldt : l.day < t.day := by
        simp only [Time.daysDiff] at hgap
        omega
      have hcnt : countEntriesToday entries t = 0 := by
        rw [countEntriesToday_eq_zero]
        intro e he
        exact lt_of_le_of_lt (hent e he) hldt
      have hcntn : ¬ countEntriesToday entries t > 0 := by omega
      refine ⟨?_, ?_, ?_, ?_⟩
      · by_cases h1 : Time.daysDiff t l = 1 <;>
          simp [activityStep, update_user_streak, specStreakStep, hu, hcntn,
            hgap, h1]
      · by_cases h1 : Time.daysDiff t l = 1 <;>
          simp [activityStep, update_user_streak, specStreakStep, hu, hcntn,
            hgap, h1, Int.max_comm]
      · by_cases h1 : Time.daysDiff t l = 1 <;>
          · simp only [activityStep, update_user_streak, hu, hcntn, hgap, h1,
              if_true, if_false, EntriesInv]
            simp [EntriesInv]
            intro e he
            exact le_trans (hent e he) (le_of_lt hldt)
      · intro l' hl'
        left
        by_cases h1 : Time.daysDiff t l = 1 <;>
          · simp [activityStep, update_user_streak, hu, hcntn, hgap, h1] at hl'
            exact hl'.symm

theorem runActivities_sim (ts : List Time) :
    ∀ (user : UserStreak) (entries : List Time),
    StrictlyIncreasing ts →
    EntriesInv user entries →
    (∀ l, user.last_activity_date = some l → ∀ t ∈ ts, Time.lt l t = true) →
    (runActivities ⟨user, entries⟩ ts).1.user = (runSpecStreak user ts).1 ∧
    (runActivities ⟨user, entries⟩ ts).2 = (runSpecStreak user ts).2 := by
  induction ts with
  | nil =>
    intro user entries _ _ _
    exact ⟨rfl, rfl⟩
  | cons t ts ih =>
    intro user entries hsi hinv hahead
    obtain ⟨herr, huser, hinv', hlast'⟩ :=
      activityStep_sim (t := t) hinv (fun l hl => hahead l hl t (by simp))
    have hahead' : ∀ l,
        (activityStep ⟨user, entries⟩ t).2.user.last_activity_date = some l →
        ∀ u ∈ ts, Time.lt l u = true := by
      intro l hl u hu
      cases hlast' l hl with
      | inl h => exact h ▸ hsi.head_lt u hu
      | inr h => exact hahead l h u (by simp [hu])
    obtain ⟨hu2, ho2⟩ :=
      ih (activityStep ⟨user, entries⟩ t).2.user
        (activityStep ⟨user, entries⟩ t).2.entries hsi.tail hinv' hahead'
    constructor
    · show (runActivities (activityStep ⟨user, entries⟩ t).2 ts).1.user =
        (runSpecStreak (specStreakStep user t).2 ts).1
      rw [← huser]
      exact hu2
    · show (activityStep ⟨user, entries⟩ t).1 ::
          (runActivities (activityStep ⟨user, entries⟩ t).2 ts).2 =
        (specStreakStep user t).1 ::
          (runSpecStreak (specStreakStep user t).2 ts).2
      rw [← huser]
      exact congrArg₂ (· :: ·) herr ho2

/-- C1.  Streak recurrence: processing any strictly increasing sequence of
activity timestamps from a state with `last_activity_date` unset (and no
stored entries) yields exactly the spec's recurrence — `current_streak`
is 1 on the first call and on any call with calendar-day gap > 1 or
negative, previous + 1 on a gap of exactly 1, and a gap of 0 is rejected
with the duplicate-entry error and no mutation; on every success
`longest_streak = max(longest_streak, current_streak)` and
`last_activity_date = now`.  Code fold and spec fold agree on the final
streak fields and on every call's outcome. -/
theorem streak_recurrence (ts : List Time) (c0 l0 : Int)
    (hts : StrictlyIncreasing ts) :
    (runActivities ⟨⟨c0, l0, none⟩, []⟩ ts).1.user =
      (runSpecStreak ⟨c0, l0, none⟩ ts).1 ∧
    (runActivities ⟨⟨c0, l0, none⟩, []⟩ ts).2 =
      (runSpecStreak ⟨c0, l0, none⟩ ts).2 :=
  runActivities_sim ts ⟨c0, l0, none⟩ [] hts rfl (by intro l hl; cases hl)

/-- Witness for C1 at a concrete four-call sequence exercising the
first-call, gap-1, gap-2 and gap-0 branches. -/
theorem streak_recurrence_witness :
    StrictlyIncreasing [⟨0, 5⟩, ⟨1, 3⟩, ⟨3, 0⟩, ⟨3, 7⟩] ∧
    (runActivities ⟨⟨0, 0, none⟩, []⟩ [⟨0, 5⟩, ⟨1, 3⟩, ⟨3, 0⟩, ⟨3, 7⟩]).1.user =
      (runSpecStreak ⟨0, 0, none⟩ [⟨0, 5⟩, ⟨1, 3⟩, ⟨3, 0⟩, ⟨3, 7⟩]).1 ∧
    (runSpecStreak ⟨0, 0, none⟩ [⟨0, 5⟩, ⟨1, 3⟩, ⟨3, 0⟩, ⟨3, 7⟩]).2 =
      [none, none, none, some duplicateEntryError] :=
  ⟨by simp [StrictlyIncreasing, Time.lt],
   (streak_recurrence [⟨0, 5⟩, ⟨1, 3⟩, ⟨3, 0⟩, ⟨3, 7⟩] 0 0
     (by simp [StrictlyIncreasing, Time.lt])).1,
   by decide⟩

/-- C8 counterexample: with `last_activity_date` null and a non-deleted
entry already stamped on the current calendar day (tick 10, queried
today), `update_user_streak` does not reject — it succeeds and mutates
the streak fields, contradicting the claim that the existing-entry check
is independent of `last_activity_date`. -/
theorem entry_check_skipped_when_unset :
    Time.le (Time.midnight ⟨0, 20⟩) ⟨0, 10⟩ = true ∧
    update_user_streak ⟨0, 0, none⟩ [⟨0, 10⟩] ⟨0, 20⟩ =
      (none, ⟨1, 1, some ⟨0, 20⟩⟩) := by
  constructor
  · decide
  · decide

/-- C8 (amended).  When `last_activity_date` is set, an existing
non-deleted entry dated at or after midnight of `now` is an independent
precondition that wins over the day-gap rule: the call is rejected with
the duplicate-entry error and no field is mutated.  When
`last_activity_date` is unset, the existing-entry check is skipped
entirely and the call succeeds with `current_streak = 1` regardless of
stored entries. -/
theorem entry_check_amended :
    (∀ (user : UserStreak) (entries : List Time) (now l : Time),
      user.last_activity_date = some l →
      countEntriesToday entries now > 0 →
      update_user_streak user entries now = (some duplicateEntryError, user)) ∧
    (∀ (user : UserStreak) (entries : List Time) (now : Time),
      user.last_activity_date = none →
      (update_user_streak user entries now).1 = none ∧
      (update_user_streak user entries now).2.current_streak = 1) := by
  constructor
  · intro user entries now l hl hcnt
    simp [update_user_streak, hl, hcnt]
  · intro user entries now hl
    simp [update_user_streak, hl]

/-- Witness for C8 (amended) at concrete inputs: a user with
`last_activity_date` two days back and an entry stamped today is
rejected; a user with `last_activity_date` unset succeeds with streak 1
despite an entry stamped today. -/
theorem entry_check_amended_witness :
    update_user_streak ⟨4, 6, some ⟨-2, 0⟩⟩ [⟨0, 1⟩] ⟨0, 9⟩ =
      (some duplicateEntryError, ⟨4, 6, some ⟨-2, 0⟩⟩) ∧
    (update_user_streak ⟨4, 6, none⟩ [⟨0, 1⟩] ⟨0, 9⟩).1 = none ∧
    (update_user_streak ⟨4, 6, none⟩ [⟨0, 1⟩] ⟨0, 9⟩).2.current_streak = 1 :=
  ⟨entry_check_amended.1 ⟨4, 6, some ⟨-2, 0⟩⟩ [⟨0, 1⟩] ⟨0, 9⟩ ⟨-2, 0⟩ rfl
      (by decide),
   entry_check_amended.2 ⟨4, 6, none⟩ [⟨0, 1⟩] ⟨0, 9⟩ rfl⟩

/-- C10.  A freshly created user (column defaults of `models.py`) has
`last_activity_date` set to the account-creation timestamp and
`current_streak = 0`; an activity recorded later on the same UTC calendar
day is rejected with the duplicate-entry error and no mutation even with
zero journal entries; and the first-entry-ever branch (success with
`current_streak = 1` irrespective of any gap computation) runs exactly
when `last_activity_date` is null. -/
theorem fresh_user_same_day_rejected :
    (∀ t : Time, (newUser t).last_activity_date = some t ∧
      (newUser t).current_streak = 0) ∧
    (∀ t now : Time, now.day = t.day →
      update_user_streak (newUser t) [] now =
        (some duplicateEntryError, newUser t)) ∧
    (∀ (user : UserStreak) (entries : List Time) (now : Time),
      user.last_activity_date = none →
      update_user_streak user entries now =
        (none, ⟨1, max 1 user.longest_streak, some now⟩)) := by
  refine ⟨fun t => ⟨rfl, rfl⟩, ?_, ?_⟩
  · intro t now hday
    have : Time.daysDiff now t = 0 := by
      simp [Time.daysDiff, hday]
    simp [update_user_streak, newUser, countEntriesToday, this]
  · intro user entries now hl
    simp [update_user_streak, hl]

/-- Witness for C10: account created at day 7 tick 100, activity at day 7
tick 5000 is rejected; a null `last_activity_date` state takes the
first-entry branch. -/
theorem fresh_user_same_day_rejected_witness :
    update_user_streak (newUser ⟨7, 100⟩) [] ⟨7, 5000⟩ =
      (some duplicateEntryError, newUser ⟨7, 100⟩) ∧
    update_user_streak ⟨3, 2, none⟩ [] ⟨9, 0⟩ = (none, ⟨1, 2, some ⟨9, 0⟩⟩) :=
  ⟨(fresh_user_same_day_rejected.2.1 ⟨7, 100⟩ ⟨7, 5000⟩ rfl),
   by
    have := fresh_user_same_day_rejected.2.2 ⟨3, 2, none⟩ [] ⟨9, 0⟩ rfl
    simpa using this⟩

/-- C2 counterexample: on `"ab@cd.ef"` with `maxLength = 5` the code
redacts first (yielding `"[EMAIL]"`, truncated to `"[EMAI"`), while the
claimed truncate-then-redact order would yield `"ab@cd"`; the claimed
order does not describe `sanitize_journal_content_for_ai`. -/
theorem sanitize_order_counterexample :
    sanitize_journal_content_for_ai "ab@cd.ef" 5 = "[EMAI" ∧
    sanitizeTruncateFirstSpec "ab@cd.ef" 5 = "ab@cd" ∧
    sanitize_journal_content_for_ai "ab@cd.ef" 5 ≠
      sanitizeTruncateFirstSpec "ab@cd.ef" 5 := by
  refine ⟨by decide, by decide, by decide⟩

/-- C9.  Entry-creation atomicity: either the request leaves the durable
state exactly as it was (every validation-failure return happens before
the commit, so the streak advance performed in memory is discarded), or
it returns 201 and commits the advanced streak together with the new
entry stamped `now`.  A streak therefore never advances durably without a
corresponding stored entry. -/
theorem create_entry_atomic (clean : String → String) (req : CreateRequest)
    (now : Time) (s : JournalState) :
    (create_entry clean req now s).1 = s ∨
    ((create_entry clean req now s).2 = 201 ∧
      (create_entry clean req now s).1 =
        ⟨(update_user_streak s.user s.entries now).2, now :: s.entries⟩) := by
  unfold create_entry
  rcases h : update_user_streak s.user s.entries now with ⟨err, user'⟩
  cases err with
  | some e => simp
  | none =>
    simp only
    split
    · exact Or.inl rfl
    · split
      · split
        · exact Or.inl rfl
        · exact Or.inr ⟨rfl, rfl⟩
      · split
        · split
          · exact Or.inl rfl
          · split
            · exact Or.inl rfl
            · split
              · exact Or.inl rfl
              · split
                · exact Or.inl rfl
                · split
                  · exact Or.inl rfl
                  · split
                    · exact Or.inl rfl
                    · split
                      · exact Or.inl rfl
                      · exact Or.inr ⟨rfl, rfl⟩
        · split
          · exact Or.inl rfl
          · split
            · exact Or.inl rfl
            · split
              · exact Or.inl rfl
              · exact Or.inl rfl

theorem redactPipeline_empty : redactPipeline "" = "" := rfl

theorem pyTake_empty (n : Nat) : pyTake "" n = "" := by
  simp [pyTake]

theorem if_empty_take (s : String) (n : Nat) :
    (if s = "" then "" else pyTake s n) = pyTake s n := by
  by_cases h : s = ""
  · simp [h, pyTake_empty]
  · simp [h]

/-- C2 (amended).  The chat sanitizer applies the six redaction
substitutions first and only then truncates and strips
(`sanitize_journal_content_for_ai = strip ∘ truncate ∘ redact`); the
analytics entry sanitizer truncates each field first (prompt to 50,
answer to 200 characters) and then redacts
(`remove_sensitive_info ∘ truncate`), so on the analytics side a PII
pattern split by the truncation boundary may remain partially visible —
as the last conjunct exhibits: a phone number cut at the 50-character
boundary survives redaction as the raw fragment `123-456-78`. -/
theorem sanitize_order_amended :
    (∀ (text : String) (n : Nat),
      sanitize_journal_content_for_ai text n =
        pyStrip (pyTake (redactPipeline text) n)) ∧
    (∀ (entries : List AiEntry) (m : Nat),
      sanitize_entries_for_ai entries m =
        String.intercalate "\n\n" ((entries.take m).map (fun e =>
          "Date: " ++ e.dateStr ++ ", Modality: " ++ e.modality ++
            ", Topic: " ++ remove_sensitive_info (pyTake e.prompt 50) ++
            ", Content: " ++ remove_sensitive_info (pyTake e.answer 200)))) ∧
    remove_sensitive_info
        (pyTake "xxxxxxxxxxxxxxxxxxxxxxxxxxxxxxxxxxxxxxx 123-456-7890" 50) =
      "xxxxxxxxxxxxxxxxxxxxxxxxxxxxxxxxxxxxxxx 123-456-78" := by
  refine ⟨?_, ?_, by decide⟩
  · intro text n
    by_cases h : text = ""
    · simp [h, sanitize_journal_content_for_ai, redactPipeline_empty,
        pyTake_empty, pyStrip]
    · simp [h, sanitize_journal_content_for_ai, redactPipeline]
  · intro entries m
    simp only [sanitize_entries_for_ai]
    congr 1
    apply List.map_congr_left
    intro e _
    rw [if_empty_take, if_empty_take]

/-- C3 evaluated at the failing input (`text = "123-456-78901"`,
`max_length = 12`): the sanitizer's redact-before-truncate order leaves
the raw phone number `123-456-7890` in its output (the truncation strips
the trailing digit that blocked the phone pattern's word boundary), and a
second application redacts it to `[PHONE]` — so sanitize is not
idempotent and its output can contain a raw match of the phone
pattern. -/
theorem sanitize_not_idempotent :
    sanitize_journal_content_for_ai "123-456-78901" 12 = "123-456-7890" ∧
    sanitize_journal_content_for_ai
        (sanitize_journal_content_for_ai "123-456-78901" 12) 12 = "[PHONE]" ∧
    sanitize_journal_content_for_ai
        (sanitize_journal_content_for_ai "123-456-78901" 12) 12 ≠
      sanitize_journal_content_for_ai "123-456-78901" 12 := by
  refine ⟨by decide, by decide, by decide⟩

/-- C7 counterexample: on an empty entry list
`format_entries_for_initial_context` returns the empty string, not the
fixed sentence the claim asserts. -/
theorem initial_context_empty_counterexample :
    format_entries_for_initial_context [] = "" ∧
    format_entries_for_initial_context [] ≠
      "No recent journal activity to reference." :=
  ⟨rfl, by decide⟩

/-- C7 (amended).  `format_entries_for_initial_context` returns the empty
string on an empty entry list; the fixed sentence
"No recent journal activity to reference." is returned exactly when the
entry list is non-empty but every entry is dropped because its sanitized
prompt or sanitized answer is empty. -/
theorem initial_context_amended :
    format_entries_for_initial_context [] = "" ∧
    (∀ entries : List AiEntry, entries ≠ [] →
      (∀ e ∈ entries, sanitize_journal_content_for_ai e.prompt 50 = "" ∨
        sanitize_journal_content_for_ai e.answer 100 = "") →
      format_entries_for_initial_context entries =
        "No recent journal activity to reference.") := by
  refine ⟨rfl, ?_⟩
  intro entries hne hdrop
  rw [format_entries_for_initial_context, if_neg hne]
  have hnil : entries.filterMap (fun entry =>
      let prompt_clean := sanitize_journal_content_for_ai entry.prompt 50
      let answer_clean := sanitize_journal_content_for_ai entry.answer 100
      if prompt_clean ≠ "" ∧ answer_clean ≠ "" then
        some ("- On " ++ entry.dateStr ++ ", topic: '" ++ prompt_clean ++
          "'. Response: '" ++ answer_clean ++ "'")
      else none) = [] := by
    rw [List.filterMap_eq_nil_iff]
    intro e he
    rcases hdrop e he with h | h <;> simp [h]
  rw [hnil]
  simp

/-- Witness for C7 (amended): one entry whose prompt sanitizes to empty
is dropped, so the fixed sentence is returned. -/
theorem initial_context_amended_witness :
    format_entries_for_initial_context [⟨1, 2, "text", "", "hello"⟩] =
      "No recent journal activity to reference." :=
  initial_context_amended.2 [⟨1, 2, "text", "", "hello"⟩] (by decide)
    (by intro e he; simp at he; subst he; left; decide)

/-! Lemmas for the codec round trip: the parser consumes exactly a
rendered value and leaves the rest of the input intact. -/

theorem skipWs_append_ws (pre l : List Char) (h : ∀ c ∈ pre, jsonWs c = true) :
    skipWs (pre ++ l) = skipWs l := by
  induction pre with
  | nil => rfl
  | cons c cs ih =>
    have hc : jsonWs c = true := h c (by simp)
    simp only [List.cons_append, skipWs, List.dropWhile_cons, hc, if_true]
    exact ih (fun c hc2 => h c (by simp [hc2]))

theorem skipWs_cons_not {c : Char} (l : List Char) (h : jsonWs c = false) :
    skipWs (c :: l) = c :: l := by
  simp [skipWs, List.dropWhile_cons, h]

theorem hexVal_hexDigit (d : Nat) (h : d < 16) : hexVal (hexDigit d) = some d := by
  interval_cases d <;> decide

theorem char_toNat_valid (c : Char) :
    c.toNat < 55296 ∨ (57344 ≤ c.toNat ∧ c.toNat < 1114112) := by
  have h := c.valid
  have he : c.toNat = c.val.toNat := rfl
  rcases h with h | h
  · left
    rw [he]
    exact_mod_cast h
  · rw [he]
    right
    exact ⟨by have := h.1; omega, by have := h.2; omega⟩

theorem psb_b (fuel : Nat) (tail : List Char) :
    parseStringBody (fuel + 1) ('\\' :: 'b' :: tail) =
      match parseStringBody fuel tail with
      | some (cs, r) => some (Char.ofNat 8 :: cs, r)
      | none => none := rfl

theorem psb_f (fuel : Nat) (tail : List Char) :
    parseStringBody (fuel + 1) ('\\' :: 'f' :: tail) =
      match parseStringBody fuel tail with
      | some (cs, r) => some (Char.ofNat 12 :: cs, r)
      | none => none := rfl

theorem psb_n (fuel : Nat) (tail : List Char) :
    parseStringBody (fuel + 1) ('\\' :: 'n' :: tail) =
      match parseStringBody fuel tail with
      | some (cs, r) => some ('\n' :: cs, r)
      | none => none := rfl

theorem psb_r (fuel : Nat) (tail : List Char) :
    parseStringBody (fuel + 1) ('\\' :: 'r' :: tail) =
      match parseStringBody fuel tail with
      | some (cs, r) => some ('\r' :: cs, r)
      | none => none := rfl

theorem psb_t (fuel : Nat) (tail : List Char) :
    parseStringBody (fuel + 1) ('\\' :: 't' :: tail) =
      match parseStringBody fuel tail with
      | some (cs, r) => some ('\t' :: cs, r)
      | none => none := rfl

theorem psb_u_single (fuel : Nat) (h1 h2 h3 h4 : Char) (a b c d n : Nat)
    (tail : List Char)
    (hv1 : hexVal h1 = some a) (hv2 : hexVal h2 = some b)
    (hv3 : hexVal h3 = some c) (hv4 : hexVal h4 = some d)
    (hn : 4096 * a + 256 * b + 16 * c + d = n)
    (hr : n < 55296 ∨ 57344 ≤ n) :
    parseStringBody (fuel + 1) ('\\' :: 'u' :: h1 :: h2 :: h3 :: h4 :: tail) =
      match parseStringBody fuel tail with
      | some (cs, r) => some (Char.ofNat n :: cs, r)
      | none => none := by
  subst hn
  rw [parseStringBody.eq_def]
  simp only [hv1, hv2, hv3, hv4]
  rw [if_neg (show ((('\\' : Char) = '"') → False) from by decide),
    if_pos True.intro, if_pos True.intro, if_pos hr]

theorem psb_u_pair (fuel : Nat) (h1 h2 h3 h4 g1 g2 g3 g4 : Char)
    (a b c d a2 b2 c2 d2 n m t : Nat) (tail : List Char)
    (hv1 : hexVal h1 = some a) (hv2 : hexVal h2 = some b)
    (hv3 : hexVal h3 = some c) (hv4 : hexVal h4 = some d)
    (hw1 : hexVal g1 = some a2) (hw2 : hexVal g2 = some b2)
    (hw3 : hexVal g3 = some c2) (hw4 : hexVal g4 = some d2)
    (hn : 4096 * a + 256 * b + 16 * c + d = n)
    (hm : 4096 * a2 + 256 * b2 + 16 * c2 + d2 = m)
    (hhi : 55296 ≤ n ∧ n < 56320)
    (hlo : 56320 ≤ m ∧ m < 57344)
    (ht : 65536 + (n - 55296) * 1024 + (m - 56320) = t) :
    parseStringBody (fuel + 1)
      ('\\' :: 'u' :: h1 :: h2 :: h3 :: h4 ::
       '\\' :: 'u' :: g1 :: g2 :: g3 :: g4 :: tail) =
      match parseStringBody fuel tail with
      | some (cs, r) => some (Char.ofNat t :: cs, r)
      | none => none := by
  subst hn hm ht
  rw [parseStringBody.eq_def]
  simp only [hv1, hv2, hv3, hv4, hw1, hw2, hw3, hw4]
  rw [if_neg (show ((('\\' : Char) = '"') → False) from by decide),
    if_pos True.intro, if_pos True.intro]
  rw [if_neg (show ((4096 * a + 256 * b + 16 * c + d < 55296 ∨
      57344 ≤ 4096 * a + 256 * b + 16 * c + d) → False) from by omega)]
  rw [if_pos (show 4096 * a + 256 * b + 16 * c + d < 56320 from by omega)]
  rw [if_pos hlo]

theorem parseStringBody_escape (cs : List Char) : ∀ (fuel : Nat) (rest : List Char),
    (escapeBody cs).length + 1 ≤ fuel →
    parseStringBody fuel (escapeBody cs ++ '"' :: rest) = some (cs, rest) := by
  induction cs with
  | nil =>
    intro fuel rest hfuel
    match fuel, hfuel with
    | fuel + 1, _ => rfl
  | cons c cs ih =>
    intro fuel rest hfuel
    by_cases hq : c = '"'
    · subst hq
      have hlen : (escapeBody ('"' :: cs)).length = 2 + (escapeBody cs).length := by
        simp [escapeBody, escapeChar]
        omega
      rw [hlen] at hfuel
      match fuel, hfuel with
      | fuel + 1, hfuel =>
        show parseStringBody (fuel + 1)
          ('\\' :: '"' :: (escapeBody cs ++ '"' :: rest)) = _
        rw [show parseStringBody (fuel + 1) ('\\' :: '"' :: (escapeBody cs ++ '"' :: rest)) =
          (match parseStringBody fuel (escapeBody cs ++ '"' :: rest) with
           | some (cs2, r) => some ('"' :: cs2, r)
           | none => none) from rfl]
        rw [ih fuel rest (by omega)]
    · by_cases hb : c = '\\'
      · subst hb
        have hlen : (escapeBody ('\\' :: cs)).length = 2 + (escapeBody cs).length := by
          simp [escapeBody, escapeChar]
          omega
        rw [hlen] at hfuel
        match fuel, hfuel with
        | fuel + 1, hfuel =>
          show parseStringBody (fuel + 1)
            ('\\' :: '\\' :: (escapeBody cs ++ '"' :: rest)) = _
          rw [show parseStringBody (fuel + 1) ('\\' :: '\\' :: (escapeBody cs ++ '"' :: rest)) =
            (match parseStringBody fuel (escapeBody cs ++ '"' :: rest) with
             | some (cs2, r) => some ('\\' :: cs2, r)
             | none => none) from rfl]
          rw [ih fuel rest (by omega)]
      · by_cases h8 : c.toNat = 8
        · have hc8 : c = Char.ofNat 8 := by
            rw [← Char.ofNat_toNat c, h8]
          subst hc8
          have hlen : (escapeBody (Char.ofNat 8 :: cs)).length =
              2 + (escapeBody cs).length := by
            simp [escapeBody, show escapeChar (Char.ofNat 8) = ['\\', 'b'] from by decide]
            omega
          rw [hlen] at hfuel
          match fuel, hfuel with
          | fuel + 1, hfuel =>
            show parseStringBody (fuel + 1)
              ('\\' :: 'b' :: (escapeBody cs ++ '"' :: rest)) = _
            rw [psb_b, ih fuel rest (by omega)]
        · by_cases h12 : c.toNat = 12
          · have hc12 : c = Char.ofNat 12 := by
              rw [← Char.ofNat_toNat c, h12]
            subst hc12
            have hlen : (escapeBody (Char.ofNat 12 :: cs)).length =
                2 + (escapeBody cs).length := by
              simp [escapeBody,
                show escapeChar (Char.ofNat 12) = ['\\', 'f'] from by decide]
              omega
            rw [hlen] at hfuel
            match fuel, hfuel with
            | fuel + 1, hfuel =>
              show parseStringBody (fuel + 1)
                ('\\' :: 'f' :: (escapeBody cs ++ '"' :: rest)) = _
              rw [psb_f, ih fuel rest (by omega)]
          · by_cases hnl : c = '\n'
            · subst hnl
              have hlen : (escapeBody ('\n' :: cs)).length =
                  2 + (escapeBody cs).length := by
                simp [escapeBody, show escapeChar '\n' = ['\\', 'n'] from by decide]
                omega
              rw [hlen] at hfuel
              match fuel, hfuel with
              | fuel + 1, hfuel =>
                show parseStringBody (fuel + 1)
                  ('\\' :: 'n' :: (escapeBody cs ++ '"' :: rest)) = _
                rw [psb_n, ih fuel rest (by omega)]
            · by_cases hcr : c = '\r'
              · subst hcr
                have hlen : (escapeBody ('\r' :: cs)).length =
                    2 + (escapeBody cs).length := by
                  simp [escapeBody, show escapeChar '\r' = ['\\', 'r'] from by decide]
                  omega
                rw [hlen] at hfuel
                match fuel, hfuel with
                | fuel + 1, hfuel =>
                  show parseStringBody (fuel + 1)
                    ('\\' :: 'r' :: (escapeBody cs ++ '"' :: rest)) = _
                  rw [psb_r, ih fuel rest (by omega)]
              · by_cases htb : c = '\t'
                · subst htb
                  have hlen : (escapeBody ('\t' :: cs)).length =
                      2 + (escapeBody cs).length := by
                    simp [escapeBody,
                      show escapeChar '\t' = ['\\', 't'] from by decide]
                    omega
                  rw [hlen] at hfuel
                  match fuel, hfuel with
                  | fuel + 1, hfuel =>
                    show parseStringBody (fuel + 1)
                      ('\\' :: 't' :: (escapeBody cs ++ '"' :: rest)) = _
                    rw [psb_t, ih fuel rest (by omega)]
                · by_cases hcl : 32 ≤ c.toNat ∧ c.toNat ≤ 126
                  · have hcn : escapeChar c = [c] := by
                      simp only [escapeChar, if_neg hq, if_neg hb, if_neg h8,
                        if_neg h12, if_neg hnl, if_neg hcr, if_neg htb]
                      rw [if_pos hcl]
                    have hlen : (escapeBody (c :: cs)).length =
                        1 + (escapeBody cs).length := by
                      simp [escapeBody, hcn]
                      omega
                    rw [hlen] at hfuel
                    match fuel, hfuel with
                    | fuel + 1, hfuel =>
                      show parseStringBody (fuel + 1)
                        (escapeChar c ++ escapeBody cs ++ '"' :: rest) = _
                      rw [hcn]
                      show parseStringBody (fuel + 1)
                        (c :: (escapeBody cs ++ '"' :: rest)) = _
                      rw [parseStringBody.eq_def]
                      have hlt : ¬ c.toNat < 32 := by omega
                      simp only []
                      rw [if_neg hq, if_neg hb, if_neg hlt]
                      rw [ih fuel rest (by omega)]
                  · by_cases hlow : c.toNat < 65536
                    · have hcn : escapeChar c = uEsc c.toNat := by
                        simp only [escapeChar, if_neg hq, if_neg hb, if_neg h8,
                          if_neg h12, if_neg hnl, if_neg hcr, if_neg htb,
                          if_neg hcl]
                        rw [if_pos hlow]
                      have hlen : (escapeBody (c :: cs)).length =
                          6 + (escapeBody cs).length := by
                        simp [escapeBody, hcn, uEsc]
                        omega
                      rw [hlen] at hfuel
                      match fuel, hfuel with
                      | fuel + 1, hfuel =>
                        show parseStringBody (fuel + 1)
                          (escapeChar c ++ escapeBody cs ++ '"' :: rest) = _
                        rw [hcn]
                        show parseStringBody (fuel + 1)
                          ('\\' :: 'u' :: hexDigit (c.toNat / 4096 % 16) ::
                           hexDigit (c.toNat / 256 % 16) ::
                           hexDigit (c.toNat / 16 % 16) ::
                           hexDigit (c.toNat % 16) ::
                           (escapeBody cs ++ '"' :: rest)) = _
                        rw [psb_u_single fuel _ _ _ _ _ _ _ _ c.toNat _
                          (hexVal_hexDigit _ (by omega))
                          (hexVal_hexDigit _ (by omega))
                          (hexVal_hexDigit _ (by omega))
                          (hexVal_hexDigit _ (by omega))
                          (by omega)
                          (by rcases char_toNat_valid c with h | h <;> omega)]
                        rw [ih fuel rest (by omega), Char.ofNat_toNat]
                    · have hcn : escapeChar c =
                          uEsc (55296 + (c.toNat - 65536) / 1024) ++
                          uEsc (56320 + (c.toNat - 65536) % 1024) := by
                        simp only [escapeChar, if_neg hq, if_neg hb, if_neg h8,
                          if_neg h12, if_neg hnl, if_neg hcr, if_neg htb,
                          if_neg hcl, if_neg hlow]
                      have hval : c.toNat < 1114112 := by
                        rcases char_toNat_valid c with h | h <;> omega
                      have hlen : (escapeBody (c :: cs)).length =
                          12 + (escapeBody cs).length := by
                        simp [escapeBody, hcn, uEsc]
                        omega
                      rw [hlen] at hfuel
                      match fuel, hfuel with
                      | fuel + 1, hfuel =>
                        show parseStringBody (fuel + 1)
                          (escapeChar c ++ escapeBody cs ++ '"' :: rest) = _
                        rw [hcn]
                        show parseStringBody (fuel + 1)
                          ('\\' :: 'u' ::
                           hexDigit ((55296 + (c.toNat - 65536) / 1024) / 4096 % 16) ::
                           hexDigit ((55296 + (c.toNat - 65536) / 1024) / 256 % 16) ::
                           hexDigit ((55296 + (c.toNat - 65536) / 1024) / 16 % 16) ::
                           hexDigit ((55296 + (c.toNat - 65536) / 1024) % 16) ::
                           '\\' :: 'u' ::
                           hexDigit ((56320 + (c.toNat - 65536) % 1024) / 4096 % 16) ::
                           hexDigit ((56320 + (c.toNat - 65536) % 1024) / 256 % 16) ::
                           hexDigit ((56320 + (c.toNat - 65536) % 1024) / 16 % 16) ::
                           hexDigit ((56320 + (c.toNat - 65536) % 1024) % 16) ::
                           (escapeBody cs ++ '"' :: rest)) = _
                        rw [psb_u_pair fuel _ _ _ _ _ _ _ _ _ _ _ _ _ _ _ _
                          (55296 + (c.toNat - 65536) / 1024)
                          (56320 + (c.toNat - 65536) % 1024) c.toNat _
                          (hexVal_hexDigit _ (by omega))
                          (hexVal_hexDigit _ (by omega))
                          (hexVal_hexDigit _ (by omega))
                          (hexVal_hexDigit _ (by omega))
                          (hexVal_hexDigit _ (by omega))
                          (hexVal_hexDigit _ (by omega))
                          (hexVal_hexDigit _ (by omega))
                          (hexVal_hexDigit _ (by omega))
                          (by omega) (by omega)
                          ⟨by omega, by omega⟩
                          ⟨by omega, by omega⟩
                          (by omega)]
                        rw [ih fuel rest (by omega), Char.ofNat_toNat]

theorem pv_skip_ws (fuel : Nat) (pre l : List Char)
    (h : ∀ c ∈ pre, jsonWs c = true) :
    parseValue fuel (pre ++ l) = parseValue fuel l := by
  cases fuel with
  | zero => rfl
  | succ fuel =>
    rw [parseValue.eq_def, parseValue.eq_def]
    rw [skipWs_append_ws pre l h]

theorem pv_null (fuel : Nat) (rest : List Char) :
    parseValue (fuel + 1) ('n' :: 'u' :: 'l' :: 'l' :: rest) =
      some (.null, rest) := rfl

theorem pv_true (fuel : Nat) (rest : List Char) :
    parseValue (fuel + 1) ('t' :: 'r' :: 'u' :: 'e' :: rest) =
      some (.bool true, rest) := rfl

theorem pv_false (fuel : Nat) (rest : List Char) :
    parseValue (fuel + 1) ('f' :: 'a' :: 'l' :: 's' :: 'e' :: rest) =
      some (.bool false, rest) := rfl

theorem pv_str (fuel : Nat) (rest : List Char) :
    parseValue (fuel + 1) ('"' :: rest) =
      match parseStringBody (rest.length + 1) rest with
      | some (content, rest2) => some (.str (String.mk content), rest2)
      | none => none := rfl

theorem pv_arr (fuel : Nat) (rest : List Char) :
    parseValue (fuel + 1) ('[' :: rest) =
      (if (skipWs rest).head? = some ']' then some (.arr [], (skipWs rest).tail)
       else
        match parseElems fuel rest with
        | some (vs, rest2) => some (.arr vs, rest2)
        | none => none) := rfl

theorem pv_obj (fuel : Nat) (rest : List Char) :
    parseValue (fuel + 1) ('{' :: rest) =
      (if (skipWs rest).head? = some '}' then some (.obj [], (skipWs rest).tail)
       else
        match parseMembers fuel rest with
        | some (ms, rest2) => some (.obj ms, rest2)
        | none => none) := rfl

theorem pm_key (fuel : Nat) (rest : List Char) :
    parseMembers (fuel + 1) ('"' :: rest) =
      (match parseStringBody (rest.length + 1) rest with
      | some (k, rest2) =>
        match skipWs rest2 with
        | ':' :: rest3 =>
          match parseValue fuel rest3 with
          | some (v, rest4) =>
            match skipWs rest4 with
            | ',' :: rest5 =>
              match parseMembers fuel rest5 with
              | some (ms, rest6) => some ((String.mk k, v) :: ms, rest6)
              | none => none
            | '}' :: rest5 => some ([(String.mk k, v)], rest5)
            | _ => none
          | none => none
        | _ => none
      | none => none) := rfl

theorem render_head (v : Json) (h : ChatJson v) :
    ∃ c l, Json.render v = c :: l ∧ jsonWs c = false ∧ c ≠ ']' := by
  cases h with
  | null => exact ⟨'n', _, rfl, by decide, by decide⟩
  | bool b =>
    cases b with
    | true => exact ⟨'t', _, rfl, by decide, by decide⟩
    | false => exact ⟨'f', _, rfl, by decide, by decide⟩
  | str s => exact ⟨'"', _, rfl, by decide, by decide⟩
  | arr xs _ => exact ⟨'[', _, rfl, by decide, by decide⟩
  | obj kvs _ => exact ⟨'{', _, rfl, by decide, by decide⟩

theorem render_length_pos (v : Json) (h : ChatJson v) :
    1 ≤ (Json.render v).length := by
  obtain ⟨c, l, he, _, _⟩ := render_head v h
  simp [he]

theorem renderElems_head (x : Json) (xs : List Json) (hx : ChatJson x) :
    ∃ c l, renderElems (x :: xs) = c :: l ∧ jsonWs c = false ∧ c ≠ ']' := by
  obtain ⟨c, l, he, hws, hne⟩ := render_head x hx
  cases xs with
  | nil => exact ⟨c, l, by rw [renderElems, he], hws, hne⟩
  | cons y ys =>
    refine ⟨c, l ++ ',' :: ' ' :: renderElems (y :: ys), ?_, hws, hne⟩
    show Json.render x ++ ',' :: ' ' :: renderElems (y :: ys) = _
    rw [he]
    simp

theorem encodeStr_length (s : String) :
    (encodeStr s).length = (escapeBody s.data).length + 2 := by
  simp [encodeStr]

theorem pm_skip_ws (fuel : Nat) (pre l : List Char)
    (h : ∀ c ∈ pre, jsonWs c = true) :
    parseMembers fuel (pre ++ l) = parseMembers fuel l := by
  cases fuel with
  | zero => rfl
  | succ fuel =>
    rw [parseMembers.eq_def, parseMembers.eq_def]
    rw [skipWs_append_ws pre l h]

theorem pe_unfold (fuel : Nat) (cs : List Char) :
    parseElems (fuel + 1) cs =
      match parseValue fuel cs with
      | none => none
      | some (v, rest) =>
        match skipWs rest with
        | ',' :: rest2 =>
          match parseElems fuel rest2 with
          | some (vs, rest3) => some (v :: vs, rest3)
          | none => none
        | ']' :: rest2 => some ([v], rest2)
        | _ => none := rfl

theorem renderElems_cons_cons (x y : Json) (ys : List Json) :
    renderElems (x :: y :: ys) =
      Json.render x ++ ',' :: ' ' :: renderElems (y :: ys) := rfl

theorem renderMembers_single (k : String) (v : Json) :
    renderMembers [(k, v)] = encodeStr k ++ ':' :: ' ' :: Json.render v := rfl

theorem renderMembers_cons_cons (k : String) (v : Json)
    (kv2 : String × Json) (kvs2 : List (String × Json)) :
    renderMembers ((k, v) :: kv2 :: kvs2) =
      encodeStr k ++ ':' :: ' ' :: Json.render v ++
        ',' :: ' ' :: renderMembers (kv2 :: kvs2) := rfl

theorem parse_render (fuel : Nat) :
    (∀ (v : Json) (pre rest : List Char), ChatJson v →
      (∀ c ∈ pre, jsonWs c = true) →
      (Json.render v).length + 1 ≤ fuel →
      parseValue fuel (pre ++ (Json.render v ++ rest)) = some (v, rest)) ∧
    (∀ (x : Json) (xs : List Json) (pre rest : List Char),
      (∀ v ∈ x :: xs, ChatJson v) →
      (∀ c ∈ pre, jsonWs c = true) →
      (renderElems (x :: xs)).length + 2 ≤ fuel →
      parseElems fuel (pre ++ (renderElems (x :: xs) ++ ']' :: rest)) =
        some (x :: xs, rest)) ∧
    (∀ (kv : String × Json) (kvs : List (String × Json)) (pre rest : List Char),
      (∀ p ∈ kv :: kvs, ChatJson p.2) →
      (∀ c ∈ pre, jsonWs c = true) →
      (renderMembers (kv :: kvs)).length + 2 ≤ fuel →
      parseMembers fuel (pre ++ (renderMembers (kv :: kvs) ++ '}' :: rest)) =
        some (kv :: kvs, rest)) := by
  induction fuel with
  | zero =>
    refine ⟨?_, ?_, ?_⟩ <;> intros <;> omega
  | succ fuel ih =>
    obtain ⟨ih1, ih2, ih3⟩ := ih
    refine ⟨?_, ?_, ?_⟩
    · -- parseValue
      intro v pre rest hv hpre hfuel
      rw [pv_skip_ws (fuel + 1) pre _ hpre]
      cases hv with
      | null => exact pv_null fuel rest
      | bool b =>
        cases b with
        | true => exact pv_true fuel rest
        | false => exact pv_false fuel rest
      | str s =>
        show parseValue (fuel + 1)
          ('"' :: (escapeBody s.data ++ ['"'] ++ rest)) = _
        have : escapeBody s.data ++ ['"'] ++ rest =
            escapeBody s.data ++ '"' :: rest := by simp
        rw [this, pv_str]
        rw [parseStringBody_escape s.data _ rest (by simp)]
      | arr xs hxs =>
        cases xs with
        | nil =>
          show parseValue (fuel + 1) ('[' :: (']' :: rest)) = _
          rw [pv_arr]
          rw [skipWs_cons_not _ (by decide)]
          simp
        | cons x xs =>
          show parseValue (fuel + 1)
            ('[' :: (renderElems (x :: xs) ++ [']'] ++ rest)) = _
          have hassoc : renderElems (x :: xs) ++ [']'] ++ rest =
              renderElems (x :: xs) ++ ']' :: rest := by simp
          rw [hassoc, pv_arr]
          obtain ⟨c, l, he, hws, hne⟩ :=
            renderElems_head x xs (hxs x (by simp))
          rw [he]
          rw [show (c :: l) ++ ']' :: rest = c :: (l ++ ']' :: rest) from rfl]
          rw [skipWs_cons_not _ hws]
          rw [if_neg (by simp [hne])]
          have hlen : (renderElems (x :: xs)).length + 2 ≤ fuel := by
            have : (Json.render (.arr (x :: xs))).length =
                (renderElems (x :: xs)).length + 2 := by
              show ('[' :: (renderElems (x :: xs) ++ [']'])).length = _
              simp
            omega
          have := ih2 x xs [] rest hxs (by intro c hc; cases hc) hlen
          rw [List.nil_append, he] at this
          rw [show (c :: l) ++ ']' :: rest = c :: (l ++ ']' :: rest) from rfl]
            at this
          rw [this]
      | obj kvs hv2 =>
        cases kvs with
        | nil =>
          show parseValue (fuel + 1) ('{' :: ('}' :: rest)) = _
          rw [pv_obj]
          rw [skipWs_cons_not _ (by decide)]
          simp
        | cons kv kvs =>
          show parseValue (fuel + 1)
            ('{' :: (renderMembers (kv :: kvs) ++ ['}'] ++ rest)) = _
          have hassoc : renderMembers (kv :: kvs) ++ ['}'] ++ rest =
              renderMembers (kv :: kvs) ++ '}' :: rest := by simp
          rw [hassoc, pv_obj]
          have hhead : ∃ l, renderMembers (kv :: kvs) = '"' :: l := by
            obtain ⟨k, v⟩ := kv
            cases kvs with
            | nil => exact ⟨_, rfl⟩
            | cons kv2 kvs2 => exact ⟨_, rfl⟩
          obtain ⟨l, hl⟩ := hhead
          rw [hl]
          rw [show ('"' :: l) ++ '}' :: rest = '"' :: (l ++ '}' :: rest) from rfl]
          rw [skipWs_cons_not _ (by decide)]
          rw [if_neg (by simp)]
          have hlen : (renderMembers (kv :: kvs)).length + 2 ≤ fuel := by
            have : (Json.render (.obj (kv :: kvs))).length =
                (renderMembers (kv :: kvs)).length + 2 := by
              show ('{' :: (renderMembers (kv :: kvs) ++ ['}'])).length = _
              simp
            omega
          have := ih3 kv kvs [] rest hv2 (by intro c hc; cases hc) hlen
          rw [List.nil_append, hl] at this
          rw [show ('"' :: l) ++ '}' :: rest = '"' :: (l ++ '}' :: rest) from rfl]
            at this
          rw [this]
    · -- parseElems
      intro x xs pre rest hcl hpre hfuel
      cases xs with
      | nil =>
        show parseElems (fuel + 1)
          (pre ++ (Json.render x ++ ']' :: rest)) = _
        rw [pe_unfold]
        rw [ih1 x pre (']' :: rest) (hcl x (by simp)) hpre (by
          have : (renderElems [x]).length = (Json.render x).length := rfl
          omega)]
        rfl
      | cons y ys =>
        have hx1 : 1 ≤ (Json.render x).length :=
          render_length_pos x (hcl x (by simp))
        have hlen : (renderElems (x :: y :: ys)).length =
            (Json.render x).length + 2 + (renderElems (y :: ys)).length := by
          rw [renderElems_cons_cons]
          simp
          omega
        show parseElems (fuel + 1)
          (pre ++ ((Json.render x ++ ',' :: ' ' :: renderElems (y :: ys)) ++
            ']' :: rest)) = _
        have hassoc :
            (Json.render x ++ ',' :: ' ' :: renderElems (y :: ys)) ++
              ']' :: rest =
            Json.render x ++
              ',' :: ' ' :: (renderElems (y :: ys) ++ ']' :: rest) := by
          simp
        rw [hassoc, pe_unfold]
        rw [ih1 x pre (',' :: ' ' :: (renderElems (y :: ys) ++ ']' :: rest))
          (hcl x (by simp)) hpre (by omega)]
        show (match parseElems fuel
            (' ' :: (renderElems (y :: ys) ++ ']' :: rest)) with
          | some (vs, rest3) => some (x :: vs, rest3)
          | none => none) = _
        have hrec := ih2 y ys [' '] rest
          (fun v hv => hcl v (by simp at hv ⊢; tauto))
          (by intro c hc; simp at hc; subst hc; decide)
          (by omega)
        rw [show ([' '] : List Char) ++
            (renderElems (y :: ys) ++ ']' :: rest) =
            ' ' :: (renderElems (y :: ys) ++ ']' :: rest) from rfl] at hrec
        rw [hrec]
    · -- parseMembers
      intro kv kvs pre rest hcl hpre hfuel
      obtain ⟨k, v⟩ := kv
      have hv : ChatJson v := hcl (k, v) (by simp)
      have hv1 : 1 ≤ (Json.render v).length := render_length_pos v hv
      have henc : (encodeStr k).length = (escapeBody k.data).length + 2 :=
        encodeStr_length k
      rw [pm_skip_ws (fuel + 1) pre _ hpre]
      cases kvs with
      | nil =>
        have hlen : (renderMembers [(k, v)]).length =
            (encodeStr k).length + 2 + (Json.render v).length := by
          rw [renderMembers_single]
          simp
          omega
        show parseMembers (fuel + 1)
          ((encodeStr k ++ ':' :: ' ' :: Json.render v) ++ '}' :: rest) = _
        have hassoc :
            (encodeStr k ++ ':' :: ' ' :: Json.render v) ++ '}' :: rest =
            '"' :: (escapeBody k.data ++
              '"' :: (':' :: ' ' :: (Json.render v ++ '}' :: rest))) := by
          simp [encodeStr]
        rw [hassoc, pm_key]
        rw [parseStringBody_escape k.data _ _ (by simp)]
        show (match parseValue fuel (' ' :: (Json.render v ++ '}' :: rest)) with
          | some (v2, rest4) =>
            match skipWs rest4 with
            | ',' :: rest5 =>
              match parseMembers fuel rest5 with
              | some (ms, rest6) => some ((k, v2) :: ms, rest6)
              | none => none
            | '}' :: rest5 => some ([(k, v2)], rest5)
            | _ => none
          | none => none) = _
        have hval := ih1 v [' '] ('}' :: rest) hv
          (by intro c hc; simp at hc; subst hc; decide) (by omega)
        rw [show ([' '] : List Char) ++ (Json.render v ++ '}' :: rest) =
          ' ' :: (Json.render v ++ '}' :: rest) from rfl] at hval
        rw [hval]
        rfl
      | cons kv2 kvs2 =>
        have hlen : (renderMembers ((k, v) :: kv2 :: kvs2)).length =
            (encodeStr k).length + 2 + (Json.render v).length + 2 +
              (renderMembers (kv2 :: kvs2)).length := by
          rw [renderMembers_cons_cons]
          simp
          omega
        show parseMembers (fuel + 1)
          ((encodeStr k ++ ':' :: ' ' :: Json.render v ++
            ',' :: ' ' :: renderMembers (kv2 :: kvs2)) ++ '}' :: rest) = _
        have hassoc :
            (encodeStr k ++ ':' :: ' ' :: Json.render v ++
              ',' :: ' ' :: renderMembers (kv2 :: kvs2)) ++ '}' :: rest =
            '"' :: (escapeBody k.data ++
              '"' :: (':' :: ' ' :: (Json.render v ++
                ',' :: ' ' :: (renderMembers (kv2 :: kvs2) ++ '}' :: rest)))) := by
          simp [encodeStr]
        rw [hassoc, pm_key]
        rw [parseStringBody_escape k.data _ _ (by simp)]
        show (match parseValue fuel
            (' ' :: (Json.render v ++
              ',' :: ' ' :: (renderMembers (kv2 :: kvs2) ++ '}' :: rest))) with
          | some (v2, rest4) =>
            match skipWs rest4 with
            | ',' :: rest5 =>
              match parseMembers fuel rest5 with
              | some (ms, rest6) => some ((k, v2) :: ms, rest6)
              | none => none
            | '}' :: rest5 => some ([(k, v2)], rest5)
            | _ => none
          | none => none) = _
        have hval := ih1 v [' ']
          (',' :: ' ' :: (renderMembers (kv2 :: kvs2) ++ '}' :: rest)) hv
          (by intro c hc; simp at hc; subst hc; decide) (by omega)
        rw [show ([' '] : List Char) ++
            (Json.render v ++
              ',' :: ' ' :: (renderMembers (kv2 :: kvs2) ++ '}' :: rest)) =
            ' ' :: (Json.render v ++
              ',' :: ' ' :: (renderMembers (kv2 :: kvs2) ++ '}' :: rest))
          from rfl] at hval
        rw [hval]
        show (match parseMembers fuel
            (' ' :: (renderMembers (kv2 :: kvs2) ++ '}' :: rest)) with
          | some (ms, rest6) => some ((k, v) :: ms, rest6)
          | none => none) = _
        have hrec := ih3 kv2 kvs2 [' '] rest
          (fun p hp => hcl p (by simp at hp ⊢; tauto))
          (by intro c hc; simp at hc; subst hc; decide)
          (by omega)
        rw [show ([' '] : List Char) ++
            (renderMembers (kv2 :: kvs2) ++ '}' :: rest) =
            ' ' :: (renderMembers (kv2 :: kvs2) ++ '}' :: rest) from rfl] at hrec
        rw [hrec]

theorem jsonLoads_dumps (v : Json) (h : ChatJson v) :
    jsonLoads (jsonDumps v) = some v := by
  rw [jsonLoads]
  have hp := (parse_render ((Json.render v).length + 1)).1 v [] [] h
    (by intro c hc; cases hc) (by omega)
  rw [List.nil_append, List.append_nil] at hp
  rw [show (jsonDumps v).length = (Json.render v).length from rfl]
  rw [show (jsonDumps v).data = Json.render v from rfl]
  rw [hp]
  rfl

theorem turnsToJson_chat (ts : List Turn) : ChatJson (turnsToJson ts) := by
  refine ChatJson.arr _ ?_
  intro v hv
  simp only [List.mem_map] at hv
  obtain ⟨t, ht, rfl⟩ := hv
  refine ChatJson.obj _ ?_
  intro kv hkv
  simp at hkv
  rcases hkv with h1 | h1 <;> rw [h1]
  · exact ChatJson.str _
  · refine ChatJson.arr _ ?_
    intro v hv
    simp only [List.mem_map] at hv
    obtain ⟨p, hp, rfl⟩ := hv
    exact ChatJson.str _

/-- C6: codec laws of the `Conversation` chat blob.  For every turn
sequence (arbitrary roles and parts, including non-ASCII, control and
astral characters), decoding after encoding returns it exactly; a null
or empty blob decodes to the empty list; and a blob `json.loads` rejects
decodes to the empty list with no error reaching the caller. -/
theorem conversation_codec :
    (∀ ts : List Turn,
      Conversation.get_chat_data (Conversation.set_chat_data (turnsToJson ts)) =
        turnsToJson ts) ∧
    Conversation.get_chat_data none = .arr [] ∧
    Conversation.get_chat_data (some "") = .arr [] ∧
    (∀ s : String, jsonLoads s = none →
      Conversation.get_chat_data (some s) = .arr []) := by
  refine ⟨?_, rfl, rfl, ?_⟩
  · intro ts
    rw [Conversation.set_chat_data, Conversation.get_chat_data]
    have hne : jsonDumps (turnsToJson ts) ≠ "" := by
      intro hcontra
      have hdata := congrArg String.data hcontra
      simp only [jsonDumps] at hdata
      rw [show (Json.render (turnsToJson ts)) =
        '[' :: (renderElems (ts.map (fun t => Json.obj
          [("role", Json.str t.role),
           ("parts", Json.arr (List.map Json.str t.parts))])) ++ [']'])
        from rfl] at hdata
      simp at hdata
    rw [if_neg hne, jsonLoads_dumps _ (turnsToJson_chat ts)]
  · intro s hs
    rw [Conversation.get_chat_data]
    by_cases he : s = ""
    · rw [if_pos he]
    · rw [if_neg he, hs]

/-- Witness for C6: the round trip at a concrete two-turn history whose
parts mix accented letters, a newline, an emoji, a tab, a quote and a
backslash, and the decode of two malformed blobs (an unterminated object
and a leading-zero numeral, both rejected by `json.loads`). -/
theorem conversation_codec_witness :
    Conversation.get_chat_data (Conversation.set_chat_data (turnsToJson
      [⟨"user", ["héllo\nwörld 🙂"]⟩, ⟨"model", ["tab\there, quote \" and \\"]⟩])) =
      turnsToJson
      [⟨"user", ["héllo\nwörld 🙂"]⟩, ⟨"model", ["tab\there, quote \" and \\"]⟩] ∧
    Conversation.get_chat_data (some "\x7bcorrupt!") = .arr [] ∧
    Conversation.get_chat_data (some "01") = .arr [] :=
  ⟨conversation_codec.1 _,
   conversation_codec.2.2.2 _ rfl,
   conversation_codec.2.2.2 _ rfl⟩


/-- C5 counterexample: with ten pattern items whose first five are empty
strings, the code slices to the cap of 5 first and then drops the falsy
items, leaving nothing — so the output falls back to the default
patterns; the claimed order (drop falsy items, then cap) would keep the
five non-empty strings. -/
theorem validator_order_counterexample :
    validate_ai_response [("patterns", .arr fiveEmptyThenFive)] =
      ⟨defaultPatterns, defaultInsights, defaultPrompts⟩ ∧
    clampFieldSpecOrder (some (.arr fiveEmptyThenFive)) 5 200 =
      ["a", "b", "c", "d", "e"] ∧
    (validate_ai_response [("patterns", .arr fiveEmptyThenFive)]).patterns ≠
      clampFieldSpecOrder (some (.arr fiveEmptyThenFive)) 5 200 := by
  refine ⟨by decide, by decide, by decide⟩

theorem clampField_length_le (v : Option Json) (cap maxLen : Nat) :
    (clampField v cap maxLen).length ≤ cap := by
  rcases v with _ | j
  · simp [clampField]
  · cases j with
    | arr xs =>
      show (((xs.take cap).filter pyTruthy).map
        (fun p => pyTake (pyStr p) maxLen)).length ≤ cap
      rw [List.length_map]
      exact le_trans (List.length_filter_le _ _) (List.length_take_le _ _)
    | null => simp [clampField]
    | bool b => simp [clampField]
    | num n => simp [clampField]
    | fnum lit => simp [clampField]
    | str s => simp [clampField]
    | obj kvs => simp [clampField]

theorem clampField_el_le (v : Option Json) (cap maxLen : Nat) :
    ∀ p ∈ clampField v cap maxLen, p.length ≤ maxLen := by
  rcases v with _ | j
  · simp [clampField]
  · cases j with
    | arr xs =>
      intro p hp
      have hp2 : p ∈ ((xs.take cap).filter pyTruthy).map
          (fun p => pyTake (pyStr p) maxLen) := hp
      simp only [List.mem_map] at hp2
      obtain ⟨q, _, rfl⟩ := hp2
      show ((pyStr q).data.take maxLen).length ≤ maxLen
      exact List.length_take_le _ _
    | null => simp [clampField]
    | bool b => simp [clampField]
    | num n => simp [clampField]
    | fnum lit => simp [clampField]
    | str s => simp [clampField]
    | obj kvs => simp [clampField]

theorem clamped_field_spec (cl dflt : List String) (cap maxLen : Nat)
    (h1 : dflt ≠ []) (h2 : dflt.length ≤ cap)
    (h3 : ∀ p ∈ dflt, p.length ≤ maxLen)
    (h4 : cl.length ≤ cap) (h5 : ∀ p ∈ cl, p.length ≤ maxLen) :
    (if cl = [] then dflt else cl) ≠ [] ∧
    (if cl = [] then dflt else cl).length ≤ cap ∧
    ∀ p ∈ (if cl = [] then dflt else cl), p.length ≤ maxLen := by
  split
  · exact ⟨h1, h2, h3⟩
  · rename_i hne
    exact ⟨hne, h4, h5⟩

/-- C5 (amended).  `validate_ai_response` returns exactly the three
fields and none is ever empty; each field is clamped to its count cap
(5/3/5) with items character-truncated (200/300/150) — but the slice to
the count cap happens BEFORE falsy items are dropped, not after.  The
claim's concrete instances hold: ten truthy pattern items yield exactly
5 outputs each of at most 200 characters, and a missing or empty
`insights` list yields the fixed default insights. -/
theorem validator_clamping_amended :
    (∀ result : List (String × Json),
      (validate_ai_response result).patterns ≠ [] ∧
      (validate_ai_response result).insights ≠ [] ∧
      (validate_ai_response result).suggested_prompts ≠ [] ∧
      (validate_ai_response result).patterns.length ≤ 5 ∧
      (validate_ai_response result).insights.length ≤ 3 ∧
      (validate_ai_response result).suggested_prompts.length ≤ 5 ∧
      (∀ p ∈ (validate_ai_response result).patterns, p.length ≤ 200) ∧
      (∀ p ∈ (validate_ai_response result).insights, p.length ≤ 300) ∧
      (∀ p ∈ (validate_ai_response result).suggested_prompts, p.length ≤ 150)) ∧
    (∀ ps : List Json, ps.length = 10 → (∀ p ∈ ps, pyTruthy p = true) →
      (validate_ai_response [("patterns", .arr ps)]).patterns.length = 5 ∧
      ∀ p ∈ (validate_ai_response [("patterns", .arr ps)]).patterns,
        p.length ≤ 200) ∧
    (∀ result : List (String × Json),
      (dictGet result "insights" = none ∨
        dictGet result "insights" = some (.arr [])) →
      (validate_ai_response result).insights = defaultInsights) := by
  refine ⟨?_, ?_, ?_⟩
  · intro result
    obtain ⟨a1, a2, a3⟩ := clamped_field_spec
      (clampField (dictGet result "patterns") 5 200) defaultPatterns 5 200
      (by decide) (by decide) (by decide)
      (clampField_length_le _ _ _) (clampField_el_le _ _ _)
    obtain ⟨b1, b2, b3⟩ := clamped_field_spec
      (clampField (dictGet result "insights") 3 300) defaultInsights 3 300
      (by decide) (by decide) (by decide)
      (clampField_length_le _ _ _) (clampField_el_le _ _ _)
    obtain ⟨c1, c2, c3⟩ := clamped_field_spec
      (clampField (dictGet result "suggested_prompts") 5 150) defaultPrompts 5 150
      (by decide) (by decide) (by decide)
      (clampField_length_le _ _ _) (clampField_el_le _ _ _)
    exact ⟨a1, b1, c1, a2, b2, c2, a3, b3, c3⟩
  · intro ps hlen htruthy
    have hfilter : (ps.take 5).filter pyTruthy = ps.take 5 :=
      List.filter_eq_self.mpr (fun a ha => htruthy a (List.mem_of_mem_take ha))
    have hclamp : (clampField (some (.arr ps)) 5 200).length = 5 := by
      show (((ps.take 5).filter pyTruthy).map
        (fun p => pyTake (pyStr p) 200)).length = 5
      rw [hfilter, List.length_map, List.length_take]
      omega
    have hne : clampField (some (.arr ps)) 5 200 ≠ [] := by
      intro hcontra
      rw [hcontra] at hclamp
      simp at hclamp
    constructor
    · show (if clampField (some (Json.arr ps)) 5 200 = [] then defaultPatterns
        else clampField (some (Json.arr ps)) 5 200).length = 5
      rw [if_neg hne]
      exact hclamp
    · show ∀ p ∈ (if clampField (some (Json.arr ps)) 5 200 = []
          then defaultPatterns else clampField (some (Json.arr ps)) 5 200),
        p.length ≤ 200
      rw [if_neg hne]
      exact clampField_el_le _ _ _
  · intro result h
    show (if clampField (dictGet result "insights") 3 300 = []
      then defaultInsights else clampField (dictGet result "insights") 3 300) = _
    rcases h with h | h <;> rw [h] <;> rfl

/-- Witness for C5 (amended) at concrete inputs: an empty decoded dict
gets the default patterns/insights; ten truthy pattern strings clamp to
exactly five. -/
theorem validator_clamping_amended_witness :
    (validate_ai_response []).patterns ≠ [] ∧
    (validate_ai_response [("patterns", .arr tenTruthyPatterns)]).patterns.length
      = 5 ∧
    (validate_ai_response []).insights = defaultInsights :=
  ⟨(validator_clamping_amended.1 []).1,
   (validator_clamping_amended.2.1 tenTruthyPatterns (by decide) (by decide)).1,
   validator_clamping_amended.2.2 [] (Or.inl rfl)⟩


theorem chat_loop_quota (outcomes : Nat → GeminiOutcome) (retries : Nat)
    (m : String) (hm : quotaLike m = true) :
    ∀ (n attempt : Nat), attempt + n ≤ retries →
    (∀ j, attempt ≤ j → j < attempt + n → chatRetryable (outcomes j)) →
    outcomes (attempt + n) = .exn m →
    call_gemini_api_loop outcomes retries attempt (retries + 1 - attempt) =
      ("I'm experiencing high demand right now. Please try again in a few minutes.",
        attempt + n + 1) := by
  intro n
  induction n with
  | zero =>
    intro attempt hle _ hout
    obtain ⟨r, hr⟩ : ∃ r, retries + 1 - attempt = r + 1 :=
      ⟨retries - attempt, by omega⟩
    rw [hr, call_gemini_api_loop]
    rw [show attempt + 0 = attempt from rfl] at hout
    simp [hout, hm]
  | succ n ih =>
    intro attempt hle hretry hout
    obtain ⟨r, hr⟩ : ∃ r, retries + 1 - attempt = r + 1 :=
      ⟨retries - attempt, by omega⟩
    have hstep : chatRetryable (outcomes attempt) :=
      hretry attempt (le_refl _) (by omega)
    have hr2 : r = retries + 1 - (attempt + 1) := by omega
    have htail := ih (attempt + 1) (by omega)
      (fun j h1 h2 => hretry j (by omega) (by omega))
      (by rw [show attempt + 1 + n = attempt + (n + 1) from by omega]; exact hout)
    rw [hr, call_gemini_api_loop]
    rcases hstep with he | ⟨m2, he, hq2, hs2⟩
    · simp only [he]
      rw [if_pos (by omega : attempt < retries), hr2, htail]
      simp only [Prod.mk.injEq]
      exact ⟨trivial, by omega⟩
    · simp only [he, hq2, hs2, Bool.false_eq_true, if_false]
      rw [if_neg (by omega : ¬ attempt = retries), hr2, htail]
      simp only [Prod.mk.injEq]
      exact ⟨trivial, by omega⟩

theorem ai_loop_count_ge (outcomes : Nat → AIOutcome) (retries : Nat) :
    ∀ (remaining attempt : Nat),
    attempt ≤ (call_ai_service_loop outcomes retries attempt remaining).2 := by
  intro remaining
  induction remaining with
  | zero => intro attempt; exact le_refl _
  | succ r ih =>
    intro attempt
    have hnext := ih (attempt + 1)
    rw [call_ai_service_loop]
    repeat' split
    all_goals omega

theorem ai_loop_count_ge1 (outcomes : Nat → AIOutcome) (retries : Nat)
    (r attempt : Nat) :
    attempt + 1 ≤
      (call_ai_service_loop outcomes retries attempt (r + 1)).2 := by
  have hnext := ai_loop_count_ge outcomes retries r (attempt + 1)
  rw [call_ai_service_loop]
  repeat' split
  all_goals omega

theorem ai_loop_walk (outcomes : Nat → AIOutcome) (retries : Nat) :
    ∀ (n attempt : Nat), attempt + n ≤ retries →
    (∀ j, attempt ≤ j → j < attempt + n → ∃ m2, outcomes j = .exn m2) →
    call_ai_service_loop outcomes retries attempt (retries + 1 - attempt) =
      call_ai_service_loop outcomes retries (attempt + n)
        (retries + 1 - (attempt + n)) := by
  intro n
  induction n with
  | zero => intro attempt _ _; rfl
  | succ n ih =>
    intro attempt hle hexn
    obtain ⟨r, hr⟩ : ∃ r, retries + 1 - attempt = r + 1 :=
      ⟨retries - attempt, by omega⟩
    obtain ⟨m2, hm2⟩ := hexn attempt (le_refl _) (by omega)
    have hr2 : r = retries + 1 - (attempt + 1) := by omega
    rw [hr, call_ai_service_loop]
    simp only [hm2]
    rw [if_neg (by omega : ¬ attempt = retries), hr2]
    rw [ih (attempt + 1) (by omega) (fun j h1 h2 => hexn j (by omega) (by omega))]
    rw [show attempt + 1 + n = attempt + (n + 1) from by omega]

/-- C4 counterexample: for the analysis wrapper, a first attempt failing
with a quota error is retried — the second attempt succeeds and the call
returns its validated result after two attempts, with no quota error
surfaced — contradicting the claim that a quota/limit failure on any
attempt stops further retries and immediately surfaces a classified
quota error. -/
theorem quota_retried_counterexample :
    quotaLike "429 quota exceeded for the model" = true ∧
    call_ai_service quotaThenOk 2 =
      (.ok ⟨defaultPatterns, defaultInsights, defaultPrompts⟩, 2) :=
  ⟨by decide, rfl⟩

/-- C4 (amended).  The chat wrapper (`call_gemini_api`) never retries a
quota/limit-classified failure: on any attempt (first or later) whose
exception text contains "quota" or "limit" it immediately returns the
fixed high-demand message.  The analysis wrapper (`call_ai_service`)
instead treats quota/limit errors like any other exception: before the
last attempt they are retried (at least one further attempt is made),
and the classified quota `ValueError` is raised only when the error of
the final attempt mentions quota/limit. -/
theorem quota_handling_amended :
    (∀ (outcomes : Nat → GeminiOutcome) (retries i : Nat) (m : String),
      i ≤ retries →
      (∀ j, j < i → chatRetryable (outcomes j)) →
      outcomes i = .exn m → quotaLike m = true →
      call_gemini_api outcomes retries =
        ("I'm experiencing high demand right now. Please try again in a few minutes.",
          i + 1)) ∧
    (∀ (outcomes : Nat → AIOutcome) (retries i : Nat) (m : String),
      i < retries →
      (∀ j, j < i → ∃ m2, outcomes j = .exn m2) →
      outcomes i = .exn m → quotaLike m = true →
      i + 2 ≤ (call_ai_service outcomes retries).2) ∧
    (∀ (outcomes : Nat → AIOutcome) (retries : Nat) (m : String),
      (∀ j, j < retries → ∃ m2, outcomes j = .exn m2) →
      outcomes retries = .exn m → quotaLike m = true →
      call_ai_service outcomes retries =
        (.error "AI service quota exceeded. Please try again later.",
          retries + 1)) := by
  refine ⟨?_, ?_, ?_⟩
  · intro outcomes retries i m hle hretry hout hq
    have := chat_loop_quota outcomes retries m hq i 0 (by omega)
      (fun j h1 h2 => hretry j (by omega)) (by simpa using hout)
    rw [call_gemini_api]
    rw [show retries + 1 = retries + 1 - 0 from rfl]
    rw [this]
    simp
  · intro outcomes retries i m hlt hexn hout hq
    rw [call_ai_service]
    rw [show retries + 1 = retries + 1 - 0 from rfl]
    rw [ai_loop_walk outcomes retries i 0 (by omega)
      (fun j h1 h2 => hexn j (by omega))]
    simp only [Nat.zero_add]
    obtain ⟨r, hr⟩ : ∃ r, retries + 1 - i = r + 1 + 1 :=
      ⟨retries - i - 1, by omega⟩
    rw [hr, call_ai_service_loop]
    simp only [hout]
    rw [if_neg (by omega : ¬ i = retries)]
    have := ai_loop_count_ge1 outcomes retries r (i + 1)
    omega
  · intro outcomes retries m hexn hout hq
    rw [call_ai_service]
    rw [show retries + 1 = retries + 1 - 0 from rfl]
    rw [ai_loop_walk outcomes retries retries 0 (by omega)
      (fun j h1 h2 => hexn j (by omega))]
    simp only [Nat.zero_add]
    rw [show retries + 1 - retries = 0 + 1 from by omega]
    rw [call_ai_service_loop]
    simp only [hout]
    simp [hq]

/-- Witness for C4 (amended): the chat wrapper returns the high-demand
message after one attempt on an immediate quota error; the analysis
wrapper with the same first outcome performs a second attempt; and an
all-quota-failures run surfaces the classified quota error after the
final attempt. -/
theorem quota_handling_amended_witness :
    call_gemini_api (fun _ => .exn "Rate limit reached") 2 =
      ("I'm experiencing high demand right now. Please try again in a few minutes.",
        1) ∧
    2 ≤ (call_ai_service quotaThenOk 2).2 ∧
    call_ai_service (fun _ => .exn "quota exhausted") 2 =
      (.error "AI service quota exceeded. Please try again later.", 3) :=
  ⟨quota_handling_amended.1 (fun _ => .exn "Rate limit reached") 2 0
      "Rate limit reached" (by omega) (fun j hj => absurd hj (by omega))
      rfl (by decide),
   le_trans (by omega) (quota_handling_amended.2.1 quotaThenOk 2 0
      "429 quota exceeded for the model" (by omega)
      (fun j hj => absurd hj (by omega)) rfl (by decide)),
   quota_handling_amended.2.2 (fun _ => .exn "quota exhausted") 2
      "quota exhausted" (fun j _ => ⟨"quota exhausted", rfl⟩) rfl (by decide)⟩

end Zen
